import Mathlib

/-!
Verification of the govready-q answer-resolution subsystem.

This file gives a shallow embedding of the code in
`src/guidedmodules/views.py` and `src/siteapp/views.py` (the `next_question`,
`instrumentation_record_interaction` and `change_task_state` view handlers and
the project view's document rendering), together with the model-layer
operations they call.  Model-layer code (`guidedmodules/models.py`,
`guidedmodules/module_logic.py`) is not part of the repository snapshot; each
definition standing in for it is marked `Modelled from the spec:` and follows
the specification's description of that operation.
-/

namespace GovReady

/-- An answer value as stored by the view layer: scalar string input, the
multi-valued input of a multiple-choice question, or an uploaded file
(identified here by a file id). -/
inductive Value where
  | vstr : String → Value
  | vlist : List String → Value
  | vfile : Nat → Value
deriving DecidableEq, Repr

/-- One record of a TaskAnswerHistory: the stored value, the ids of the Tasks
answering a module/module-set question, the id of an uploaded file, and the
cleared flag distinguishing a cleared answer from a skipped (null) one. -/
structure AnswerEntry where
  value : Option Value
  answeredByTasks : List Nat
  answeredByFile : Option Nat
  cleared : Bool
deriving DecidableEq, Repr

/-- A TaskAnswer row: the per-(task, question) answer container with its
append-only history (head of the list is the newest record). -/
structure TaskAnswer where
  taskId : Nat
  questionId : Nat
  history : List AnswerEntry
deriving DecidableEq, Repr

/-- A Task row: an instantiation of a Module (fields from the Task model used
by the embedded views, including the soft-delete timestamp `deletedAt`). -/
structure Task where
  id : Nat
  moduleId : Nat
  projectId : Nat
  editorId : Nat
  title : String
  notes : String
  deletedAt : Option Nat
deriving DecidableEq, Repr

/-- A Project row (only the organization scoping field is relevant here). -/
structure Project where
  id : Nat
  organizationId : Nat
deriving DecidableEq, Repr

/-- An InstrumentationEvent row, with the fields the embedded views set. -/
structure Event where
  userId : Nat
  eventType : String
  eventValue : Option Nat
  moduleId : Option Nat
  questionId : Option Nat
  projectId : Option Nat
  taskId : Option Nat
  time : Nat
deriving DecidableEq, Repr

/-- A visibility (ask) condition of a question: either absent/always true or
an equality test of a previously resolved answer against a string. -/
inductive AskCond where
  | always : AskCond
  | eqAnswer : String → String → AskCond
deriving DecidableEq, Repr

/-- A ModuleQuestion definition: stable key, type tag (the spec dictionary's
"type" string, e.g. "text", "module", "module-set", "file"), the id of the
Module answering it (for module-type questions), its visibility condition and
prompt template. -/
structure QuestionDef where
  id : Nat
  key : String
  qtype : String
  answerTypeModule : Option Nat
  askCondition : Option AskCond
  prompt : String
deriving DecidableEq, Repr

/-- A Module definition: id, title, and its ordered question list. -/
structure ModuleDef where
  id : Nat
  title : String
  questions : List QuestionDef
deriving DecidableEq, Repr

/-- The persistent state the embedded handlers read and write: Projects,
Tasks, TaskAnswers (with their histories), InstrumentationEvents, and the
id the next created Task receives. -/
structure State where
  projects : List Project
  tasks : List Task
  answers : List TaskAnswer
  events : List Event
  nextTaskId : Nat
deriving DecidableEq, Repr

/-- The responses the embedded view handlers can produce. -/
inductive Response where
  | forbidden
  | notFound
  | notAllowed
  | okText (msg : String)
  | jsonOk (redirect : String)
  | jsonError (msg : String)
  | raised (msg : String)
deriving DecidableEq, Repr

/-- A Python exception escaping a handler: ValueError, a Django
DoesNotExist lookup failure, or the CycleError of the task-linkage guard. -/
inductive PyExc where
  | valueError (msg : String)
  | doesNotExist
  | cycleError
deriving DecidableEq, Repr

/-- The 500 response produced by an uncaught exception. -/
def PyExc.toResponse : PyExc → Response
  | .valueError m => .raised m
  | .doesNotExist => .raised "DoesNotExist"
  | .cycleError => .raised "CycleError"

/- ## Answer-store operations (model layer) -/

/-- The current (most recent) TaskAnswerHistory record of a TaskAnswer. -/
def TaskAnswer.get_current_answer (ta : TaskAnswer) : Option AnswerEntry :=
  ta.history.head?

/-- Modelled from the spec: `TaskAnswer.has_answer` of guidedmodules/models.py
(not included in src/).  A question is answered when its newest history
record exists and is not cleared (a cleared record returns the question to
the unanswered state, spec section 4.3). -/
def TaskAnswer.has_answer (ta : TaskAnswer) : Bool :=
  match ta.history.head? with
  | some e => !e.cleared
  | none => false

/-- Modelled from the spec: `TaskAnswer.save_answer` of
guidedmodules/models.py (not included in src/).  "Saving records a new value
only if it differs materially from the current value (structural comparison,
not pointer identity) and returns a boolean indicating whether a change
actually occurred" (spec section 4.3).  The proposed record carries the
value, the answering task ids, the answering file and cleared = false; it is
appended to the history exactly when it differs structurally from the
current record. -/
def TaskAnswer.save_answer (ta : TaskAnswer) (value : Option Value)
    (tasks : List Nat) (file : Option Nat) : TaskAnswer × Bool :=
  let entry : AnswerEntry := ⟨value, tasks, file, false⟩
  match ta.history.head? with
  | some cur =>
      if cur = entry then (ta, false)
      else ({ ta with history := entry :: ta.history }, true)
  | none => ({ ta with history := entry :: ta.history }, true)

/-- Modelled from the spec: `TaskAnswer.clear_answer` of
guidedmodules/models.py (not included in src/).  "clear removes the effective
answer and returns the question to unanswered" (spec section 4.3): when the
question currently has an effective answer, a record with the cleared flag is
appended; otherwise there is nothing to clear. -/
def TaskAnswer.clear_answer (ta : TaskAnswer) : TaskAnswer :=
  if ta.has_answer then { ta with history := ⟨none, [], none, true⟩ :: ta.history }
  else ta

/-- The view's reading of a current answer (guidedmodules/views.py lines
306-312): fetch the current answer record and, "if the answer is cleared,
treat as if it had not been answered". -/
def effectiveEntry (ta : Option TaskAnswer) : Option AnswerEntry :=
  match ta with
  | none => none
  | some t =>
      match t.get_current_answer with
      | none => none
      | some a => if a.cleared then none else some a

/- ## State lookups and updates -/

/-- `get_object_or_404(Task, id=taskid, project__organization=request.organization)`. -/
def findTaskInOrg (s : State) (taskId orgId : Nat) : Option Task :=
  match s.tasks.find? (fun t => t.id == taskId) with
  | none => none
  | some t =>
      match s.projects.find? (fun p => p.id == t.projectId) with
      | none => none
      | some p => if p.organizationId == orgId then some t else none

/-- Look a Task up by id (`Task.objects.get(id=...)`). -/
def findTask (tasks : List Task) (taskId : Nat) : Option Task :=
  tasks.find? (fun t => t.id == taskId)

/-- Look a Module definition up by id (the Task's `module` foreign key). -/
def findModule (mods : List ModuleDef) (moduleId : Nat) : Option ModuleDef :=
  mods.find? (fun m => m.id == moduleId)

/-- `task.module.questions.get(id=...)`. -/
def findQuestion (m : ModuleDef) (questionId : Nat) : Option QuestionDef :=
  m.questions.find? (fun q => q.id == questionId)

/-- Find the TaskAnswer row for a (task, question) pair. -/
def findTaskAnswer (s : State) (taskId questionId : Nat) : Option TaskAnswer :=
  s.answers.find? (fun ta => ta.taskId == taskId && ta.questionId == questionId)

/-- `TaskAnswer.objects.get_or_create(task=task, question=q)` (views.py lines
100-104): return the existing row or add an empty one. -/
def getOrCreateTA (s : State) (taskId questionId : Nat) : TaskAnswer × State :=
  match findTaskAnswer s taskId questionId with
  | some ta => (ta, s)
  | none =>
      let ta : TaskAnswer := ⟨taskId, questionId, []⟩
      (ta, { s with answers := ta :: s.answers })

/-- Write an updated TaskAnswer row back into the state. -/
def setTA (s : State) (ta : TaskAnswer) : State :=
  { s with answers := (s.answers.map (fun x =>
      if x.taskId == ta.taskId && x.questionId == ta.questionId then ta else x)) }

/-- The effective answer of a (task, question) pair in a state, as the view
reads it (cleared records count as never answered). -/
def State.effectiveAnswer (s : State) (taskId questionId : Nat) : Option AnswerEntry :=
  effectiveEntry (findTaskAnswer s taskId questionId)

/- ## The task dependency graph -/

/-- The dependency edges contributed by one TaskAnswer: its owning task points
to each task currently answering it (cleared answers contribute nothing). -/
def edgesOfTA (ta : TaskAnswer) : List (Nat × Nat) :=
  match ta.history.head? with
  | some e => if e.cleared then [] else e.answeredByTasks.map (fun c => (ta.taskId, c))
  | none => []

/-- The Task Graph of a state: the parent-to-child dependency edges induced by
all current module/module-set answers. -/
def State.edges (s : State) : List (Nat × Nat) :=
  s.answers.flatMap edgesOfTA

/-- The direct successors (children) of a node in an edge list. -/
def succsOf (E : List (Nat × Nat)) (a : Nat) : List Nat :=
  (E.filter (fun e => e.1 == a)).map Prod.snd

/-- One round of reachable-set expansion: the set together with every direct
successor of its members, without duplicates. -/
def stepSet (E : List (Nat × Nat)) (S : List Nat) : List Nat :=
  (S ++ S.flatMap (succsOf E)).dedup

/-- Iterate `stepSet` until it no longer grows (or fuel runs out). -/
def closeSet (E : List (Nat × Nat)) : Nat → List Nat → List Nat
  | 0, S => S
  | fuel + 1, S =>
      if (stepSet E S).length = S.length then S else closeSet E fuel (stepSet E S)

/-- All nodes reachable from `a` (including `a` itself) along the edges,
computed with enough fuel to reach the closure's fixed point. -/
def reachableFrom (E : List (Nat × Nat)) (a : Nat) : List Nat :=
  closeSet E ((a :: E.map Prod.snd).dedup.length + 1) [a]

/-- Modelled from the spec: the ancestor test of the Task-linkage cycle guard
(guidedmodules/models.py, not included in src/).  `c` counts as an ancestor of
`p` when `p` lies on a dependency chain starting at `c` (spec section 4.2:
"a Task cannot be linked as an answer to a question on any Task that is itself
(directly or transitively) an ancestor of it"). -/
def isAncestorOf (E : List (Nat × Nat)) (c p : Nat) : Bool :=
  decide (p ∈ reachableFrom E c)

/-- Reachability along dependency edges (the mathematical, reflexive and
transitive, ancestor relation the computable guard is measured against). -/
inductive Reaches (E : List (Nat × Nat)) : Nat → Nat → Prop
  | refl (a : Nat) : Reaches E a a
  | step {a v b : Nat} : (a, v) ∈ E → Reaches E v b → Reaches E a b

/-- An edge list is acyclic when no edge can be closed into a loop. -/
def Acyclic (E : List (Nat × Nat)) : Prop :=
  ∀ e ∈ E, ¬ Reaches E e.2 e.1

/- ## Parsing and validation of posted answers -/

/-- Modelled from the spec: `module_logic.question_input_parser.parse`
composed with `module_logic.validator.validate` (guidedmodules/module_logic.py,
not included in src/).  A multiple-choice question keeps the posted
multi-valued field as a list; every other question type requires the single
posted string field (`ValueError` otherwise, reported as a string error). -/
def question_input_parse (q : QuestionDef) (vals : List String) : Except String Value :=
  if q.qtype = "multiple-choice" then .ok (.vlist vals)
  else
    match vals with
    | [v] => .ok (.vstr v)
    | _ => .error "value is not valid for this question"

/-- Modelled from the spec: `module_logic.run_external_function`
(guidedmodules/module_logic.py, not included in src/); no claim depends on the
value an external function computes, so it is represented by a fixed result. -/
def run_external_function (q : QuestionDef) : Except String Value :=
  .ok (.vstr ("external-function result for " ++ q.key))

/-- The outcome of the method/value validation block of `next_question`
(views.py lines 49-98): an immediate ok response (file save with no upload,
lines 66-71), a caught validation error returned as a JSON error (lines
84-86 and 90-93), or a parsed value with the cleared flag. -/
inductive ParsedMethod where
  | earlyOk
  | invalid (msg : String)
  | parsed (value : Option Value) (cleared : Bool)
deriving DecidableEq, Repr

/-- views.py lines 49-98: dispatch on the posted `method` parameter.  `clear`
yields no value with the cleared flag; `skip` yields a null value; `save`
reads and validates the posted value (files come from the upload field; an
absent upload preserves the current value and returns immediately); any other
method raises ValueError. -/
def parse_method_value (q : QuestionDef) (method : String) (vals : List String)
    (fileValue : Option Nat) : Except PyExc ParsedMethod :=
  if method = "clear" then .ok (.parsed none true)
  else if method = "skip" then .ok (.parsed none false)
  else if method = "save" then
    if q.qtype = "file" then
      match fileValue with
      | none => .ok .earlyOk
      | some f => .ok (.parsed (some (.vfile f)) false)
    else
      match question_input_parse q vals with
      | .error msg => .ok (.invalid msg)
      | .ok v =>
          if q.qtype = "external-function" then
            match run_external_function q with
            | .error msg => .ok (.invalid msg)
            | .ok v2 => .ok (.parsed (some v2) false)
          else .ok (.parsed (some v) false)
  else .error (.valueError "invalid method parameter")

/-- `value.split(',')` (views.py line 131): split a string on commas. -/
def splitOnComma (s : String) : List String :=
  (s.data.splitOn ',').map (fun cs => String.mk cs)

/-- `int(item)` (views.py line 130): parse a decimal numeral, failing on an
empty string or any non-digit character. -/
def parseNat? (s : String) : Option Nat :=
  if s.data = [] then none
  else s.data.foldl (fun acc c => match acc with
    | none => none
    | some n => if c.isDigit then some (n * 10 + (c.toNat - 48)) else none) (some 0)

/-- `int(item)` over the items of the comma-separated value (views.py lines
129-132); a non-numeric item raises ValueError. -/
def parse_task_ids : List String → Except PyExc (List Nat)
  | [] => .ok []
  | item :: rest =>
      match parseNat? item with
      | none => .error (.valueError "invalid literal for int")
      | some n =>
          match parse_task_ids rest with
          | .ok ns => .ok (n :: ns)
          | .error e => .error e

/-- `Task.objects.get(id=...)` over a list of ids (views.py lines 129-132);
an unknown id raises DoesNotExist. -/
def lookup_tasks (tasks : List Task) : List Nat → Except PyExc (List Task)
  | [] => .ok []
  | i :: rest =>
      match findTask tasks i with
      | none => .error .doesNotExist
      | some t =>
          match lookup_tasks tasks rest with
          | .ok ts => .ok (t :: ts)
          | .error e => .error e

/-- views.py lines 126-137: the user selects existing Tasks as the answer.
The comma-separated ids are parsed and looked up; every referenced Task must
be of the question's declared answer Module and readable by the acting user
("invalid task ID" otherwise); a singular "module" question requires exactly
one reference ("did not provide exactly one task ID" otherwise). -/
def validate_answer_tasks (tasks : List Task) (hasReadPriv : Nat → Nat → Bool)
    (userId : Nat) (q : QuestionDef) (idstr : String) : Except PyExc (List Nat) :=
  match parse_task_ids (splitOnComma idstr) with
  | .error e => .error e
  | .ok ids =>
      match lookup_tasks tasks ids with
      | .error e => .error e
      | .ok ts =>
          if (ts.all (fun t => (some t.moduleId == q.answerTypeModule)
              && hasReadPriv userId t.id)) = false then
            .error (.valueError "invalid task ID")
          else if q.qtype = "module" && ids.length != 1 then
            .error (.valueError "did not provide exactly one task ID")
          else .ok ids

/-- views.py lines 152-169: classify the instrumentation event from the
cleared flag, the posted method, whether the question already had an answer,
and the boolean `save_answer` returned. -/
def computeEventType (cleared methodIsSkip had changed : Bool) : String :=
  if cleared then "clear"
  else if changed then
    (if methodIsSkip then "skip" else if had then "change" else "answer")
  else "keep"

/- ## The next_question POST handler -/

/-- The form data of a POST to `next_question`. -/
structure PostReq where
  userId : Nat
  orgId : Nat
  taskId : Nat
  questionId : Nat
  method : String
  value : List String
  fileValue : Option Nat
  path : String
deriving DecidableEq, Repr

/-- `task.get_absolute_url()`. -/
def taskURL (t : Task) : String :=
  "/tasks/" ++ toString t.id

/-- The time of the earliest "task-question-show" event for (user, task,
question) (views.py lines 175-180 and 416-421: filter, order by event time,
first).  Events are recorded in chronological order here, so the first match
is the earliest. -/
def firstShowTime (s : State) (userId taskId questionId : Nat) : Option Nat :=
  ((s.events.filter (fun e => e.userId == userId
      && e.eventType == "task-question-show"
      && e.taskId == some taskId
      && e.questionId == some questionId)).map Event.time).head?

/-- `InstrumentationEvent.objects.create(...)`: append a new event row. -/
def addEvent (s : State) (e : Event) : State :=
  { s with events := s.events ++ [e] }

/-- The instrumentation event recorded after an answer mutation (views.py
lines 171-194): its type is "task-question-" plus the classification and its
value the seconds since the question was first shown. -/
def mkAnswerEvent (s : State) (userId : Nat) (task : Task) (q : QuestionDef)
    (etype : String) (now : Nat) : Event :=
  { userId := userId
    eventType := "task-question-" ++ etype
    eventValue := (match firstShowTime s userId task.id q.id with
                   | some t0 => some (now - t0)
                   | none => none)
    moduleId := some task.moduleId
    questionId := some q.id
    projectId := some task.projectId
    taskId := some task.id
    time := now }

/-- The string the view splits on commas (views.py line 131): posted module
answers arrive as a single string field of comma-separated task ids. -/
def valueIdString : Value → String
  | .vstr s => s
  | .vlist l => String.intercalate "," l
  | .vfile _ => ""

/-- The Task row `Task.create` builds for a "__new" answer (views.py lines
110-116): a fresh id, the question's declared answer Module, the parent's
project, the acting user as editor, and the answer Module's title. -/
def newSubtask (mods : List ModuleDef) (s : State) (task : Task)
    (userId amId : Nat) : Task :=
  { id := s.nextTaskId, moduleId := amId
    projectId := task.projectId, editorId := userId
    title := (match findModule mods amId with
              | some m => m.title
              | none => "")
    notes := "", deletedAt := none }

/-- The result of the answered-by-task computation (views.py lines 106-150):
the value and file that will be stored, the answering task ids, the possibly
extended state (a freshly created subtask), and the redirect target. -/
structure LinkResult where
  value : Option Value
  answeredByTasks : List Nat
  answeredByFile : Option Nat
  state : State
  redirect : String
deriving DecidableEq, Repr

/-- views.py lines 106-150: compute which Tasks answer the question.  For a
module/module-set question a posted "__new" creates a fresh subtask of the
declared answer Module and redirects to it (lines 109-119), a null value is
a skip (lines 121-123), and otherwise the posted ids are validated (lines
125-137); the stored value becomes null.  For a file question the upload is
moved into the answered-by-file slot (lines 142-147). -/
def computeLinkage (mods : List ModuleDef) (hasReadPriv : Nat → Nat → Bool)
    (userId : Nat) (task : Task) (q : QuestionDef) (value : Option Value)
    (cleared : Bool) (redirect0 : String) (s : State) : Except PyExc LinkResult :=
  if (q.qtype = "module" || q.qtype = "module-set") && !cleared then
    if value == some (.vstr "__new") then
      match q.answerTypeModule with
      | none => .error (.valueError "question has no answer module")
      | some amId =>
          .ok { value := none
                answeredByTasks := [(newSubtask mods s task userId amId).id]
                answeredByFile := none
                state := { s with
                  tasks := s.tasks ++ [newSubtask mods s task userId amId],
                  nextTaskId := s.nextTaskId + 1 }
                redirect := taskURL (newSubtask mods s task userId amId) }
    else if value == none then
      .ok { value := none, answeredByTasks := [], answeredByFile := none
            state := s, redirect := redirect0 }
    else
      match value with
      | none =>
          .ok { value := none, answeredByTasks := [], answeredByFile := none
                state := s, redirect := redirect0 }
      | some v =>
          match validate_answer_tasks s.tasks hasReadPriv userId q (valueIdString v) with
          | .error e => .error e
          | .ok ids =>
              .ok { value := none, answeredByTasks := ids, answeredByFile := none
                    state := s, redirect := redirect0 }
  else if q.qtype = "file" && !cleared then
    .ok { value := none, answeredByTasks := []
          answeredByFile := (match value with | some (.vfile f) => some f | _ => none)
          state := s, redirect := redirect0 }
  else
    .ok { value := value, answeredByTasks := [], answeredByFile := none
          state := s, redirect := redirect0 }

/-- The core of the POST branch of `next_question` (views.py lines 43-197)
after the Task, Module and Question lookups: parse and validate the value,
get or create the TaskAnswer row, compute the answering tasks, then clear or
save the answer and record the classified instrumentation event.  The cycle
guard is modelled from the spec (sections 4.2 and 7, the model layer is not
included in src/): a linkage whose target is an ancestor of the owning Task
raises CycleError before the answer store is touched. -/
def nqpCore (mods : List ModuleDef) (hasReadPriv : Nat → Nat → Bool) (now : Nat)
    (s : State) (task : Task) (q : QuestionDef) (req : PostReq) :
    Except PyExc (Response × State) :=
  match parse_method_value q req.method req.value req.fileValue with
  | .error e => .error e
  | .ok .earlyOk => .ok (.jsonOk req.path, s)
  | .ok (.invalid msg) => .ok (.jsonError msg, s)
  | .ok (.parsed value cleared) =>
      let tas := getOrCreateTA s task.id q.id
      match computeLinkage mods hasReadPriv req.userId task q value cleared req.path tas.2 with
      | .error e => .error e
      | .ok link =>
          if cleared then
            let s3 := setTA link.state tas.1.clear_answer
            .ok (.jsonOk link.redirect, addEvent s3 (mkAnswerEvent s3 req.userId task q "clear" now))
          else if link.answeredByTasks.any
              (fun c => isAncestorOf (State.edges link.state) c task.id) then
            .error .cycleError
          else
            let saved := tas.1.save_answer link.value link.answeredByTasks link.answeredByFile
            let etype := computeEventType false (req.method == "skip") tas.1.has_answer saved.2
            let s3 := setTA link.state saved.1
            .ok (.jsonOk link.redirect, addEvent s3 (mkAnswerEvent s3 req.userId task q etype now))

/-- The POST branch of the `next_question` view (guidedmodules/views.py lines
29-197): look the Task up inside the requesting organization, reject users
without write privilege before anything is touched (lines 38-41), look the
question up, then run the core.  An uncaught exception aborts the
per-request transaction (spec section 5), leaving the state as it was. -/
def next_question_post (mods : List ModuleDef)
    (hasWritePriv hasReadPriv : Nat → Nat → Bool) (now : Nat)
    (s : State) (req : PostReq) : Response × State :=
  match findTaskInOrg s req.taskId req.orgId with
  | none => (.notFound, s)
  | some task =>
      if hasWritePriv req.userId task.id then
        match findModule mods task.moduleId with
        | none => (.raised "module not found", s)
        | some m =>
            match findQuestion m req.questionId with
            | none => (.raised "DoesNotExist", s)
            | some q =>
                match nqpCore mods hasReadPriv now s task q req with
                | .ok rs => rs
                | .error e => (e.toResponse, s)
      else (.forbidden, s)

/- ## The change_task_state and instrumentation views -/

/-- Set the soft-delete timestamp of one Task, leaving every other column and
every other row alone (`task.save(update_fields=["deleted_at"])`). -/
def updateTaskDeletedAt (s : State) (taskId : Nat) (v : Option Nat) : State :=
  { s with tasks := (s.tasks.map (fun t =>
      if t.id == taskId then { t with deletedAt := v } else t)) }

/-- The `change_task_state` view (guidedmodules/views.py lines 438-456):
"delete" stamps the Task's `deleted_at` with the current time, "undelete"
resets it to null, anything else is forbidden; the Task is saved with
`update_fields=["deleted_at"]`, so no other column is written. -/
def change_task_state (hasWritePriv : Nat → Nat → Bool) (now : Nat)
    (s : State) (userId orgId taskId : Nat) (stateParam : String)
    (isPost : Bool) : Response × State :=
  if !isPost then (.notAllowed, s)
  else
    match findTaskInOrg s taskId orgId with
    | none => (.notFound, s)
    | some task =>
        if hasWritePriv userId task.id then
          if stateParam = "delete" then
            (.okText "ok", updateTaskDeletedAt s taskId (some now))
          else if stateParam = "undelete" then
            (.okText "ok", updateTaskDeletedAt s taskId none)
          else (.forbidden, s)
        else (.forbidden, s)

/-- The "task-question-interact-first" event row the interaction view
creates (views.py lines 425-434), its value the seconds from the first
"task-question-show" event to now. -/
def interactFirstEvent (s : State) (userId : Nat) (task : Task) (q : QuestionDef)
    (now : Nat) : Event :=
  { userId := userId
    eventType := "task-question-interact-first"
    eventValue := (match firstShowTime s userId task.id q.id with
                   | some t0 => some (now - t0)
                   | none => none)
    moduleId := some task.moduleId
    questionId := some q.id
    projectId := some task.projectId
    taskId := some task.id
    time := now }

/-- The `instrumentation_record_interaction` view (guidedmodules/views.py
lines 386-436): for a readable Task and an existing question, record a
"task-question-interact-first" event - unless one already exists for this
(user, task, question), in which case the request returns ok without
creating anything. -/
def instrumentation_record_interaction (mods : List ModuleDef)
    (hasReadPriv : Nat → Nat → Bool) (now : Nat) (s : State)
    (userId orgId taskId questionId : Nat) (isPost : Bool) : Response × State :=
  if !isPost then (.notAllowed, s)
  else
    match findTaskInOrg s taskId orgId with
    | none => (.notFound, s)
    | some task =>
        if hasReadPriv userId task.id then
          match findModule mods task.moduleId with
          | none => (.forbidden, s)
          | some m =>
              match findQuestion m questionId with
              | none => (.forbidden, s)
              | some q =>
                  if s.events.any (fun e => e.userId == userId
                      && e.eventType == "task-question-interact-first"
                      && e.taskId == some task.id
                      && e.questionId == some q.id) then
                    (.okText "ok", s)
                  else
                    (.okText "ok", addEvent s (interactFirstEvent s userId task q now))
        else (.forbidden, s)

/- ## Answer-set resolution (model layer) -/

/-- The resolution status of one question: answered, answerable now, or
imputed because its visibility condition failed. -/
inductive QState where
  | answered
  | canAnswer
  | imputed
deriving DecidableEq, Repr

/-- One entry of the resolved answer set. -/
structure ResolvedQ where
  key : String
  qstate : QState
  value : Option Value
deriving DecidableEq, Repr

/-- Modelled from the spec: evaluation of a question's ask-condition against
the already-resolved values (module_logic, not included in src/).  A
condition referencing a key that is not resolved fails with a configuration
error rather than being treated as false (spec section 4.1). -/
def evalCond (dict : List (String × Option Value)) : AskCond → Except String Bool
  | .always => .ok true
  | .eqAnswer k v =>
      match dict.lookup k with
      | none => .error ("ask-condition references undefined key " ++ k)
      | some a => .ok (a == some (.vstr v))

/-- Modelled from the spec: the resolution walk of
`task.get_answers().with_extended_info()` (guidedmodules models and
module_logic, not included in src/), spec section 4.1: questions are visited
in definition order; a question whose condition fails is imputed null, a
visible question is "answered" when the store holds an effective
(not cleared) answer for it and "can-answer-now" otherwise, and every
question key receives an entry in the resolved dictionary, so the answer set
is total.  The answer store is threaded through and handed back so that the
read's freedom from mutation is visible in the result. -/
def resolveQuestions (taskId : Nat) :
    List QuestionDef → List (String × Option Value) → List TaskAnswer →
    Except String (List ResolvedQ × List (String × Option Value) × List TaskAnswer)
  | [], dict, store => .ok ([], dict, store)
  | q :: rest, dict, store =>
      match (match q.askCondition with
             | none => Except.ok true
             | some c => evalCond dict c) with
      | .error e => .error e
      | .ok vis =>
          if vis then
            match effectiveEntry (store.find? (fun ta =>
                ta.taskId == taskId && ta.questionId == q.id)) with
            | some e =>
                match resolveQuestions taskId rest (dict ++ [(q.key, e.value)]) store with
                | .error er => .error er
                | .ok (rs, d, st) => .ok (⟨q.key, .answered, e.value⟩ :: rs, d, st)
            | none =>
                match resolveQuestions taskId rest (dict ++ [(q.key, none)]) store with
                | .error er => .error er
                | .ok (rs, d, st) => .ok (⟨q.key, .canAnswer, none⟩ :: rs, d, st)
          else
            match resolveQuestions taskId rest (dict ++ [(q.key, none)]) store with
            | .error er => .error er
            | .ok (rs, d, st) => .ok (⟨q.key, .imputed, none⟩ :: rs, d, st)

/-- `task.get_answers().with_extended_info()` at the view's call site
(guidedmodules/views.py lines 33-35): resolve all questions of the Task's
module against the state's answer store. -/
def with_extended_info (mods : List ModuleDef) (s : State) (task : Task) :
    Except String (List ResolvedQ × List (String × Option Value) × List TaskAnswer) :=
  match findModule mods task.moduleId with
  | none => .error "module not found"
  | some m => resolveQuestions task.id m.questions [] s.answers

/- ## Document rendering (model layer) -/

/-- A piece of an output template: literal text or a variable reference. -/
inductive TemplatePart where
  | lit (s : String)
  | var (key : String)
deriving DecidableEq, Repr

/-- An output document of a module definition: an optional project tab and a
template. -/
structure OutputDoc where
  tab : Option String
  template : List TemplatePart
deriving DecidableEq, Repr

/-- Text substituted for a resolved value: a skipped or imputed null value
renders as empty text. -/
def valueText : Option Value → String
  | none => ""
  | some (.vstr s) => s
  | some (.vlist l) => String.intercalate ", " l
  | some (.vfile f) => "file " ++ toString f

/-- Modelled from the spec: `module_logic.render_content`
(guidedmodules/module_logic.py, not included in src/), spec section 4.4:
substitute each variable from the resolved-plus-imputed dictionary; a
variable missing from the dictionary is a hard error, a present null value
substitutes as empty text rather than raising. -/
def render_content (dict : List (String × Option Value)) :
    List TemplatePart → Except String String
  | [] => .ok ""
  | .lit t :: rest =>
      match render_content dict rest with
      | .ok r => .ok (t ++ r)
      | .error e => .error e
  | .var k :: rest =>
      match dict.lookup k with
      | none => .error ("undefined variable " ++ k)
      | some v =>
          match render_content dict rest with
          | .ok r => .ok (valueText v ++ r)
          | .error e => .error e

/-- A rendered output document: its tab, its text, and whether it is the
error notice of a suppressed rendering failure. -/
structure RenderedDoc where
  tab : Option String
  text : String
  renderFailed : Bool
deriving DecidableEq, Repr

/-- Modelled from the spec and its call sites: `Task.render_output_documents`
(guidedmodules/models.py, not included in src/).  Each output document of the
module is rendered with `render_content`; under `hard_fail` (the default) a
rendering failure propagates as a hard error, while under `hard_fail=False`
the failing document is replaced by an error notice instead of raising. -/
def render_output_documents (hardFail : Bool) (dict : List (String × Option Value)) :
    List OutputDoc → Except String (List RenderedDoc)
  | [] => .ok []
  | d :: rest =>
      match render_content dict d.template with
      | .ok txt =>
          match render_output_documents hardFail dict rest with
          | .ok rs => .ok (⟨d.tab, txt, false⟩ :: rs)
          | .error e => .error e
      | .error e =>
          if hardFail then .error e
          else
            match render_output_documents hardFail dict rest with
            | .ok rs => .ok (⟨d.tab, "template error: " ++ e, true⟩ :: rs)
            | .error e2 => .error e2

/-- The document rendering the project view requests (siteapp/views.py lines
169-176): `project.root_task.render_output_documents(hard_fail=False)`. -/
def projectViewRenderDocs (dict : List (String × Option Value))
    (docs : List OutputDoc) : Except String (List RenderedDoc) :=
  render_output_documents false dict docs

/-- The document rendering of the module-finished page
(guidedmodules/views.py lines 288-301): `task.render_output_documents(answered)`
in the default hard-failure mode. -/
def moduleFinishedRenderDocs (dict : List (String × Option Value))
    (docs : List OutputDoc) : Except String (List RenderedDoc) :=
  render_output_documents true dict docs

/- ## Counting instrumentation events -/

/-- The number of "task-question-interact-first" events recorded for a
(user, task, question) triple. -/
def countInteractFirst (s : State) (userId taskId questionId : Nat) : Nat :=
  (s.events.filter (fun e => e.userId == userId
      && e.eventType == "task-question-interact-first"
      && e.taskId == some taskId
      && e.questionId == some questionId)).length

/- ## A concrete scenario (used to instantiate the general theorems) -/

/-- A plain text question of the root module. -/
def wq1 : QuestionDef := ⟨1, "intro", "text", none, none, "Say hello"⟩

/-- A singular module question of the root module, answered by Sub Module tasks. -/
def wq2 : QuestionDef := ⟨2, "sub", "module", some 20, none, "Pick a subtask"⟩

/-- A text question only visible when "intro" was answered "yes". -/
def wq3 : QuestionDef := ⟨3, "extra", "text", none, some (.eqAnswer "intro" "yes"), "More"⟩

/-- A module question of the sub module pointing back at Root Module tasks. -/
def wq4 : QuestionDef := ⟨4, "back", "module", some 10, none, "Point back"⟩

/-- The root module definition. -/
def wmod10 : ModuleDef := ⟨10, "Root Module", [wq1, wq2, wq3]⟩

/-- The sub module definition. -/
def wmod20 : ModuleDef := ⟨20, "Sub Module", [wq4]⟩

/-- The loaded module definitions of the scenario. -/
def wmods : List ModuleDef := [wmod10, wmod20]

/-- Task 1, an instance of the root module in project 1, edited by user 7. -/
def wtask1 : Task := ⟨1, 10, 1, 7, "Root", "", none⟩

/-- Task 2, an instance of the sub module, already answering wq2 of task 1. -/
def wtask2 : Task := ⟨2, 20, 1, 7, "Sub", "", none⟩

/-- The current answer record linking task 1's question 2 to task 2. -/
def wlinkEntry : AnswerEntry := ⟨none, [2], none, false⟩

/-- The TaskAnswer row holding that link. -/
def wta12 : TaskAnswer := ⟨1, 2, [wlinkEntry]⟩

/-- The scenario state: one project in organization 1, tasks 1 and 2, the
link answer, no events, next task id 3. -/
def wstate : State := ⟨[⟨1, 1⟩], [wtask1, wtask2], [wta12], [], 3⟩

/-- A permission predicate granting everything. -/
def allowAll : Nat → Nat → Bool := fun _ _ => true

/-- A permission predicate denying everything. -/
def denyAll : Nat → Nat → Bool := fun _ _ => false

/-- A POST skipping question 1 of task 1. -/
def wskipReq : PostReq := ⟨7, 1, 1, 1, "skip", [], none, "/tasks/1"⟩

/-- A POST clearing question 1 of task 1. -/
def wclearReq : PostReq := ⟨7, 1, 1, 1, "clear", [], none, "/tasks/1"⟩

/-- A POST answering task 2's question 4 with task 1 - its own ancestor. -/
def wcycleReq : PostReq := ⟨7, 1, 2, 4, "save", ["1"], none, "/tasks/2"⟩

/-- A POST creating a new subtask as the answer of task 1's question 2. -/
def wnewReq : PostReq := ⟨7, 1, 1, 2, "save", ["__new"], none, "/tasks/1"⟩

/- ## Helper lemmas: lookups and updates -/

theorem findTaskInOrg_id {s : State} {taskId orgId : Nat} {task : Task}
    (h : findTaskInOrg s taskId orgId = some task) : task.id = taskId := by
  unfold findTaskInOrg at h
  cases h1 : s.tasks.find? (fun t => t.id == taskId) with
  | none => simp [h1] at h
  | some t =>
      simp only [h1] at h
      have ht := List.find?_some h1
      cases h2 : s.projects.find? (fun p => p.id == t.projectId) with
      | none => simp [h2] at h
      | some p =>
          simp only [h2] at h
          by_cases h3 : (p.organizationId == orgId) = true
          · simp only [h3, if_true, Option.some.injEq] at h
            subst h
            simpa using ht
          · simp [h3] at h

theorem findTaskInOrg_mem {s : State} {taskId orgId : Nat} {task : Task}
    (h : findTaskInOrg s taskId orgId = some task) : task ∈ s.tasks := by
  unfold findTaskInOrg at h
  cases h1 : s.tasks.find? (fun t => t.id == taskId) with
  | none => simp [h1] at h
  | some t =>
      simp only [h1] at h
      have ht := List.mem_of_find?_eq_some h1
      cases h2 : s.projects.find? (fun p => p.id == t.projectId) with
      | none => simp [h2] at h
      | some p =>
          simp only [h2] at h
          by_cases h3 : (p.organizationId == orgId) = true
          · simp only [h3, if_true, Option.some.injEq] at h
            subst h
            exact ht
          · simp [h3] at h

theorem findQuestion_id {m : ModuleDef} {questionId : Nat} {q : QuestionDef}
    (h : findQuestion m questionId = some q) : q.id = questionId := by
  have := List.find?_some h
  simpa using this

theorem findTaskAnswer_ids {s : State} {tid qid : Nat} {ta : TaskAnswer}
    (h : findTaskAnswer s tid qid = some ta) : ta.taskId = tid ∧ ta.questionId = qid := by
  have := List.find?_some h
  simpa [Bool.and_eq_true] using this

theorem getOrCreateTA_ids (s : State) (tid qid : Nat) :
    (getOrCreateTA s tid qid).1.taskId = tid ∧ (getOrCreateTA s tid qid).1.questionId = qid := by
  unfold getOrCreateTA
  cases h : findTaskAnswer s tid qid with
  | none => simp
  | some ta => simpa using findTaskAnswer_ids h

theorem getOrCreateTA_frame (s : State) (tid qid : Nat) :
    (getOrCreateTA s tid qid).2.tasks = s.tasks ∧
    (getOrCreateTA s tid qid).2.events = s.events ∧
    (getOrCreateTA s tid qid).2.projects = s.projects ∧
    (getOrCreateTA s tid qid).2.nextTaskId = s.nextTaskId := by
  unfold getOrCreateTA
  cases h : findTaskAnswer s tid qid <;> simp

theorem getOrCreateTA_mem (s : State) (tid qid : Nat) :
    (getOrCreateTA s tid qid).1 ∈ (getOrCreateTA s tid qid).2.answers := by
  unfold getOrCreateTA
  cases h : findTaskAnswer s tid qid with
  | none => simp
  | some ta => simpa using List.mem_of_find?_eq_some h

theorem find?_set_list (l : List TaskAnswer) (ta : TaskAnswer)
    (hex : ∃ x ∈ l, (x.taskId == ta.taskId && x.questionId == ta.questionId) = true) :
    (l.map (fun x => if x.taskId == ta.taskId && x.questionId == ta.questionId then ta else x)).find?
      (fun x => x.taskId == ta.taskId && x.questionId == ta.questionId) = some ta := by
  induction l with
  | nil => simp at hex
  | cons a l ih =>
      by_cases h : (a.taskId == ta.taskId && a.questionId == ta.questionId) = true
      · simp only [List.map_cons, if_pos h]
        exact List.find?_cons_of_pos _ (by simp)
      · have h' : (a.taskId == ta.taskId && a.questionId == ta.questionId) = false := by
          simpa using h
        rw [List.map_cons, if_neg h]
        simp only [List.find?, h']
        apply ih
        rcases hex with ⟨x, hx, hpx⟩
        rcases List.mem_cons.mp hx with rfl | hx'
        · exact absurd hpx h
        · exact ⟨x, hx', hpx⟩

theorem findTaskAnswer_setTA {s : State} {ta : TaskAnswer}
    (hex : ∃ x ∈ s.answers, x.taskId = ta.taskId ∧ x.questionId = ta.questionId) :
    findTaskAnswer (setTA s ta) ta.taskId ta.questionId = some ta := by
  unfold findTaskAnswer setTA
  apply find?_set_list
  rcases hex with ⟨x, hx, h1, h2⟩
  exact ⟨x, hx, by simp [h1, h2]⟩

theorem setTA_frame (s : State) (ta : TaskAnswer) :
    (setTA s ta).tasks = s.tasks ∧ (setTA s ta).events = s.events ∧
    (setTA s ta).projects = s.projects ∧ (setTA s ta).nextTaskId = s.nextTaskId := by
  unfold setTA; simp

theorem addEvent_frame (s : State) (e : Event) :
    (addEvent s e).tasks = s.tasks ∧ (addEvent s e).answers = s.answers ∧
    (addEvent s e).projects = s.projects ∧ (addEvent s e).nextTaskId = s.nextTaskId := by
  unfold addEvent; simp

/- ## Helper lemmas: the answer store -/

theorem save_answer_head (ta : TaskAnswer) (value : Option Value)
    (tasks : List Nat) (file : Option Nat) :
    (ta.save_answer value tasks file).1.history.head? = some ⟨value, tasks, file, false⟩ := by
  unfold TaskAnswer.save_answer
  cases h : ta.history.head? with
  | none => simp
  | some cur =>
      by_cases hc : cur = (⟨value, tasks, file, false⟩ : AnswerEntry)
      · simp [hc, h]
      · simp [hc, h]

theorem save_answer_of_head_eq {ta : TaskAnswer} {value : Option Value}
    {tasks : List Nat} {file : Option Nat}
    (h : ta.history.head? = some ⟨value, tasks, file, false⟩) :
    ta.save_answer value tasks file = (ta, false) := by
  unfold TaskAnswer.save_answer
  rw [h]
  simp

theorem effectiveEntry_of_head {ta : TaskAnswer} {e : AnswerEntry}
    (h : ta.history.head? = some e) (hc : e.cleared = false) :
    effectiveEntry (some ta) = some e := by
  unfold effectiveEntry TaskAnswer.get_current_answer
  simp [h, hc]

theorem save_answer_ids (ta : TaskAnswer) (value : Option Value)
    (tasks : List Nat) (file : Option Nat) :
    (ta.save_answer value tasks file).1.taskId = ta.taskId ∧
    (ta.save_answer value tasks file).1.questionId = ta.questionId := by
  unfold TaskAnswer.save_answer
  cases h : ta.history.head? with
  | none => simp
  | some cur =>
      by_cases hc : cur = (⟨value, tasks, file, false⟩ : AnswerEntry)
      · simp [hc]
      · simp [hc]

theorem clear_answer_ids (ta : TaskAnswer) :
    ta.clear_answer.taskId = ta.taskId ∧ ta.clear_answer.questionId = ta.questionId := by
  unfold TaskAnswer.clear_answer
  by_cases h : ta.has_answer <;> simp [h]

theorem effectiveEntry_clear (ta : TaskAnswer) :
    effectiveEntry (some ta.clear_answer) = none := by
  unfold TaskAnswer.clear_answer TaskAnswer.has_answer effectiveEntry TaskAnswer.get_current_answer
  cases h : ta.history.head? with
  | none => simp [h]
  | some e =>
      by_cases hc : e.cleared
      · simp [h, hc]
      · simp [h, hc]

/-- Claim C2: a non-clear save records a new history entry exactly when the
proposed record differs structurally from the current one; the returned
boolean reports that; with method "save", a false return classifies as
"keep", a true return as "change" when an answer pre-existed and as "answer"
otherwise; and saving the same value a second time returns false with no new
history entry. -/
theorem C2_save_material_change (ta : TaskAnswer) (value : Option Value)
    (tasks : List Nat) (file : Option Nat) :
    ((ta.save_answer value tasks file).2 = true ↔
      ta.get_current_answer ≠ some ⟨value, tasks, file, false⟩) ∧
    ((ta.save_answer value tasks file).2 = true →
      (ta.save_answer value tasks file).1.history =
        ⟨value, tasks, file, false⟩ :: ta.history) ∧
    ((ta.save_answer value tasks file).2 = false →
      (ta.save_answer value tasks file).1 = ta) ∧
    ((ta.save_answer value tasks file).1.save_answer value tasks file =
      ((ta.save_answer value tasks file).1, false)) ∧
    (computeEventType false false ta.has_answer (ta.save_answer value tasks file).2 =
      if (ta.save_answer value tasks file).2 then
        (if ta.has_answer then "change" else "answer")
      else "keep") := by
  refine ⟨?_, ?_, ?_, ?_, ?_⟩
  · unfold TaskAnswer.save_answer TaskAnswer.get_current_answer
    cases h : ta.history.head? with
    | none => simp
    | some cur =>
        by_cases hc : cur = (⟨value, tasks, file, false⟩ : AnswerEntry)
        · simp [hc]
        · simp [hc]
  · unfold TaskAnswer.save_answer
    cases h : ta.history.head? with
    | none => simp
    | some cur =>
        by_cases hc : cur = (⟨value, tasks, file, false⟩ : AnswerEntry)
        · simp [hc]
        · simp [hc]
  · unfold TaskAnswer.save_answer
    cases h : ta.history.head? with
    | none => simp
    | some cur =>
        by_cases hc : cur = (⟨value, tasks, file, false⟩ : AnswerEntry)
        · simp [hc]
        · simp [hc]
  · exact save_answer_of_head_eq (save_answer_head ta value tasks file)
  · unfold computeEventType
    cases h : (ta.save_answer value tasks file).2 <;> simp

/-- Claim C8: a POST to next_question by a user without write privilege on
the Task is rejected with a forbidden response before anything is touched:
the state is returned unchanged, so no Answer, history record, child Task or
instrumentation event is created. -/
theorem C8_forbidden_write (mods : List ModuleDef)
    (hasWritePriv hasReadPriv : Nat → Nat → Bool) (now : Nat)
    (s : State) (req : PostReq) (task : Task)
    (hT : findTaskInOrg s req.taskId req.orgId = some task)
    (hW : hasWritePriv req.userId task.id = false) :
    next_question_post mods hasWritePriv hasReadPriv now s req = (.forbidden, s) := by
  unfold next_question_post
  rw [hT]
  simp [hW]

theorem C8_forbidden_write_witness :
    next_question_post wmods denyAll allowAll 5 wstate wskipReq = (.forbidden, wstate) :=
  C8_forbidden_write wmods denyAll allowAll 5 wstate wskipReq wtask1 rfl rfl

/- ## Helper lemmas: soft deletion -/

theorem find?_update_deleted (l : List Task) (taskId : Nat) (v : Option Nat) (t0 : Task)
    (h : l.find? (fun t => t.id == taskId) = some t0) :
    (l.map (fun t => if t.id == taskId then { t with deletedAt := v } else t)).find?
      (fun t => t.id == taskId) = some { t0 with deletedAt := v } := by
  induction l with
  | nil => simp at h
  | cons a l ih =>
      by_cases ha : (a.id == taskId) = true
      · simp only [List.find?, ha] at h
        cases h
        rw [List.map_cons, if_pos ha]
        simp only [List.find?]
        simp [ha]
      · have ha' : (a.id == taskId) = false := by simpa using ha
        simp only [List.find?, ha'] at h
        rw [List.map_cons, if_neg ha]
        simp only [List.find?, ha']
        exact ih h

theorem findTaskInOrg_updateDeletedAt {s : State} {taskId orgId : Nat} {task : Task}
    (v : Option Nat) (h : findTaskInOrg s taskId orgId = some task) :
    findTaskInOrg (updateTaskDeletedAt s taskId v) taskId orgId =
      some { task with deletedAt := v } := by
  unfold findTaskInOrg at h ⊢
  cases h1 : s.tasks.find? (fun t => t.id == taskId) with
  | none => simp [h1] at h
  | some t =>
      simp only [h1] at h
      have h2 := find?_update_deleted s.tasks taskId v t h1
      unfold updateTaskDeletedAt
      simp only [h2]
      cases h3 : s.projects.find? (fun p => p.id == t.projectId) with
      | none => simp [h3] at h
      | some p =>
          simp only [h3] at h
          by_cases h4 : (p.organizationId == orgId) = true
          · simp only [h4, if_true, Option.some.injEq] at h
            subst h
            simp [h3, h4]
          · simp [h4] at h

theorem updateTaskDeletedAt_frame (s : State) (taskId : Nat) (v : Option Nat) :
    (updateTaskDeletedAt s taskId v).answers = s.answers ∧
    (updateTaskDeletedAt s taskId v).events = s.events ∧
    (updateTaskDeletedAt s taskId v).projects = s.projects ∧
    (updateTaskDeletedAt s taskId v).nextTaskId = s.nextTaskId := by
  unfold updateTaskDeletedAt; simp

theorem mem_updateTaskDeletedAt {s : State} {taskId : Nat} {v : Option Nat} {t : Task}
    (ht : t ∈ s.tasks) :
    ({ t with deletedAt := if t.id = taskId then v else t.deletedAt } : Task) ∈
      (updateTaskDeletedAt s taskId v).tasks := by
  unfold updateTaskDeletedAt
  refine List.mem_map.mpr ⟨t, ht, ?_⟩
  by_cases h : t.id = taskId
  · simp [h]
  · simp [h]

/-- Claim C9: task deletion is a soft, reversible flag.  The delete operation
sets only the Task's deleted-at timestamp and undelete sets it back to null;
every other Task field, every other Task, and all Answers with their
histories (and all events and projects) are left unchanged, and undelete
after delete restores the not-deleted state. -/
theorem C9_soft_delete (hasWritePriv : Nat → Nat → Bool) (now : Nat) (s : State)
    (userId orgId taskId : Nat) (task : Task)
    (hT : findTaskInOrg s taskId orgId = some task)
    (hW : hasWritePriv userId task.id = true) :
    (change_task_state hasWritePriv now s userId orgId taskId "delete" true).1 = .okText "ok" ∧
    ∀ sd, (change_task_state hasWritePriv now s userId orgId taskId "delete" true).2 = sd →
      sd.answers = s.answers ∧ sd.events = s.events ∧ sd.projects = s.projects ∧
      sd.nextTaskId = s.nextTaskId ∧
      (∀ t ∈ s.tasks,
        ({ t with deletedAt := if t.id = taskId then some now else t.deletedAt } : Task) ∈ sd.tasks) ∧
      ∀ su, (change_task_state hasWritePriv now sd userId orgId taskId "undelete" true).2 = su →
        su.answers = s.answers ∧ su.events = s.events ∧
        ∀ t ∈ s.tasks,
          ({ t with deletedAt := if t.id = taskId then none else t.deletedAt } : Task) ∈ su.tasks := by
  have hdel : change_task_state hasWritePriv now s userId orgId taskId "delete" true =
      (.okText "ok", updateTaskDeletedAt s taskId (some now)) := by
    unfold change_task_state
    rw [hT]
    simp [hW]
  refine ⟨by rw [hdel], ?_⟩
  intro sd hsd
  have hsd' : sd = updateTaskDeletedAt s taskId (some now) := by rw [← hsd, hdel]
  subst hsd'
  obtain ⟨hA, hE, hP, hN⟩ := updateTaskDeletedAt_frame s taskId (some now)
  refine ⟨hA, hE, hP, hN, fun t ht => mem_updateTaskDeletedAt ht, ?_⟩
  intro su hsu
  have hT2 := findTaskInOrg_updateDeletedAt (some now) hT
  have hundel : change_task_state hasWritePriv now (updateTaskDeletedAt s taskId (some now))
      userId orgId taskId "undelete" true =
      (.okText "ok", updateTaskDeletedAt (updateTaskDeletedAt s taskId (some now)) taskId none) := by
    unfold change_task_state
    rw [hT2]
    simp [hW]
  have hsu' : su = updateTaskDeletedAt (updateTaskDeletedAt s taskId (some now)) taskId none := by
    rw [← hsu, hundel]
  subst hsu'
  obtain ⟨hA2, hE2, _, _⟩ :=
    updateTaskDeletedAt_frame (updateTaskDeletedAt s taskId (some now)) taskId none
  refine ⟨by rw [hA2, hA], by rw [hE2, hE], ?_⟩
  intro t ht
  have h1 := @mem_updateTaskDeletedAt s taskId (some now) t ht
  have h2 := @mem_updateTaskDeletedAt (updateTaskDeletedAt s taskId (some now)) taskId none _ h1
  by_cases h : t.id = taskId
  · simpa [h] using h2
  · simpa [h] using h2

theorem C9_soft_delete_witness :
    (change_task_state allowAll 5 wstate 7 1 1 "delete" true).1 = .okText "ok" :=
  (C9_soft_delete allowAll 5 wstate 7 1 1 wtask1 rfl rfl).1

/- ## Helper lemmas: the interaction-instrumentation view -/

theorem record_interaction_state (mods : List ModuleDef)
    (hasReadPriv : Nat → Nat → Bool) (now : Nat) (s : State)
    (userId orgId taskId questionId : Nat) (isPost : Bool) :
    (instrumentation_record_interaction mods hasReadPriv now s
        userId orgId taskId questionId isPost).2 = s ∨
    (∃ task m q, findTaskInOrg s taskId orgId = some task ∧
      hasReadPriv userId task.id = true ∧
      findModule mods task.moduleId = some m ∧
      findQuestion m questionId = some q ∧
      (s.events.any (fun e => e.userId == userId
        && e.eventType == "task-question-interact-first"
        && e.taskId == some task.id
        && e.questionId == some q.id)) = false ∧
      (instrumentation_record_interaction mods hasReadPriv now s
          userId orgId taskId questionId isPost).2 =
        addEvent s (interactFirstEvent s userId task q now)) := by
  unfold instrumentation_record_interaction
  cases isPost with
  | false => left; rfl
  | true =>
      rcases Option.eq_none_or_eq_some (findTaskInOrg s taskId orgId) with hT | ⟨task, hT⟩
      · left; simp [hT]
      · by_cases hrp : hasReadPriv userId task.id = true
        · rcases Option.eq_none_or_eq_some (findModule mods task.moduleId) with hm | ⟨m, hm⟩
          · left; simp [hT, hrp, hm]
          · rcases Option.eq_none_or_eq_some (findQuestion m questionId) with hq | ⟨q, hq⟩
            · left; simp [hT, hrp, hm, hq]
            · by_cases hAny : (s.events.any (fun e => e.userId == userId
                  && e.eventType == "task-question-interact-first"
                  && e.taskId == some task.id
                  && e.questionId == some q.id)) = true
              · left; simp [hT, hrp, hm, hq, hAny]
              · right
                refine ⟨task, m, q, hT, hrp, hm, hq, by simpa using hAny, ?_⟩
                simp [hT, hrp, hm, hq, hAny]
        · left; simp [hT, hrp]

theorem countInteractFirst_pos_iff (s : State) (userId taskId questionId : Nat) :
    0 < countInteractFirst s userId taskId questionId ↔
    (s.events.any (fun e => e.userId == userId
      && e.eventType == "task-question-interact-first"
      && e.taskId == some taskId
      && e.questionId == some questionId)) = true := by
  unfold countInteractFirst
  rw [List.length_pos_iff_exists_mem, List.any_eq_true]
  constructor
  · rintro ⟨e, he⟩
    have := List.mem_filter.mp he
    exact ⟨e, this.1, this.2⟩
  · rintro ⟨e, he, hp⟩
    exact ⟨e, List.mem_filter.mpr ⟨he, hp⟩⟩

/-- Claim C10: at most one task-question-interact-first instrumentation event
is ever recorded per (user, task, question): if one already exists the
request is a no-op on the event store (and, when the request passes its
checks, it still answers ok), and the at-most-one invariant is preserved by
every request. -/
theorem C10_interact_first_once (mods : List ModuleDef)
    (hasReadPriv : Nat → Nat → Bool) (now : Nat) (s : State)
    (userId orgId taskId questionId : Nat) (isPost : Bool)
    (hinv : countInteractFirst s userId taskId questionId ≤ 1) :
    countInteractFirst
      (instrumentation_record_interaction mods hasReadPriv now s
        userId orgId taskId questionId isPost).2 userId taskId questionId ≤ 1 ∧
    (1 ≤ countInteractFirst s userId taskId questionId →
      (instrumentation_record_interaction mods hasReadPriv now s
        userId orgId taskId questionId isPost).2 = s) ∧
    (∀ task m q, findTaskInOrg s taskId orgId = some task →
      hasReadPriv userId task.id = true →
      findModule mods task.moduleId = some m →
      findQuestion m questionId = some q →
      1 ≤ countInteractFirst s userId taskId questionId →
      isPost = true →
      instrumentation_record_interaction mods hasReadPriv now s
        userId orgId taskId questionId isPost = (.okText "ok", s)) := by
  refine ⟨?_, ?_, ?_⟩
  · rcases record_interaction_state mods hasReadPriv now s userId orgId taskId questionId isPost with
      h | ⟨task, m, q, hT, hrp, hm, hq, hAny, heq⟩
    · rw [h]; exact hinv
    · have hid : task.id = taskId := findTaskInOrg_id hT
      have hqid : q.id = questionId := findQuestion_id hq
      rw [heq]
      simp only [hid, hqid] at hAny
      have hzero : countInteractFirst s userId taskId questionId = 0 := by
        by_contra hne
        have hpos : 0 < countInteractFirst s userId taskId questionId := Nat.pos_of_ne_zero hne
        rw [countInteractFirst_pos_iff] at hpos
        rw [hpos] at hAny
        exact absurd hAny (by simp)
      unfold countInteractFirst at hzero
      unfold countInteractFirst addEvent
      simp only [List.filter_append, List.length_append]
      rw [hzero]
      simp [interactFirstEvent, hid, hqid]
  · intro hone
    rcases record_interaction_state mods hasReadPriv now s userId orgId taskId questionId isPost with
      h | ⟨task, m, q, hT, hrp, hm, hq, hAny, heq⟩
    · exact h
    · exfalso
      have hid : task.id = taskId := findTaskInOrg_id hT
      have hqid : q.id = questionId := findQuestion_id hq
      simp only [hid, hqid] at hAny
      have := (countInteractFirst_pos_iff s userId taskId questionId).mp hone
      rw [this] at hAny
      exact absurd hAny (by simp)
  · intro task m q hT hrp hm hq hone hpost
    subst hpost
    have hid : task.id = taskId := findTaskInOrg_id hT
    have hqid : q.id = questionId := findQuestion_id hq
    have hAny := (countInteractFirst_pos_iff s userId taskId questionId).mp hone
    unfold instrumentation_record_interaction
    simp only [Bool.not_true, Bool.false_eq_true, if_false]
    rw [hT]
    simp only [hrp, if_true, hm, hq]
    simp only [hid, hqid]
    simp [hAny]

theorem C10_interact_first_once_witness :
    countInteractFirst
      (instrumentation_record_interaction wmods allowAll 5 wstate 7 1 1 1 true).2 7 1 1 ≤ 1 :=
  (C10_interact_first_once wmods allowAll 5 wstate 7 1 1 1 true (by decide)).1

/- ## Helper lemmas: task-reference validation -/

theorem lookup_tasks_mem {tasks : List Task} :
    ∀ {ids : List Nat} {ts : List Task}, lookup_tasks tasks ids = .ok ts →
      ∀ i ∈ ids, ∃ t ∈ ts, findTask tasks i = some t := by
  intro ids
  induction ids with
  | nil => intro ts h i hi; simp at hi
  | cons j rest ih =>
      intro ts h i hi
      unfold lookup_tasks at h
      cases hf : findTask tasks j with
      | none => rw [hf] at h; simp at h
      | some t =>
          rw [hf] at h
          cases hr : lookup_tasks tasks rest with
          | error e => rw [hr] at h; simp at h
          | ok ns =>
              rw [hr] at h
              simp only [Option.some.injEq, Except.ok.injEq] at h
              subst h
              rcases List.mem_cons.mp hi with rfl | hi'
              · exact ⟨t, List.mem_cons_self t ns, hf⟩
              · rcases ih hr i hi' with ⟨u, hu, hfu⟩
                exact ⟨u, List.mem_cons_of_mem t hu, hfu⟩

/-- Claim C3: an answer-by-task-reference to a module or module-set question
is accepted only if every referenced Task exists, is an instance of the
question's declared answer Module and is readable by the acting user, and a
singular "module" question requires exactly one reference; when those
conditions hold the references are accepted (any number of them for a
module-set question), and each violation is rejected as invalid with the
code's ValueError message. -/
theorem C3_task_reference_validation (tasks : List Task)
    (hasReadPriv : Nat → Nat → Bool) (userId : Nat) (q : QuestionDef) (idstr : String) :
    (∀ ids, validate_answer_tasks tasks hasReadPriv userId q idstr = .ok ids →
      (∀ i ∈ ids, ∃ t, findTask tasks i = some t ∧
        some t.moduleId = q.answerTypeModule ∧ hasReadPriv userId t.id = true) ∧
      (q.qtype = "module" → ids.length = 1)) ∧
    (∀ ids ts, parse_task_ids (splitOnComma idstr) = .ok ids →
      lookup_tasks tasks ids = .ok ts →
      (∀ t ∈ ts, some t.moduleId = q.answerTypeModule ∧ hasReadPriv userId t.id = true) →
      (q.qtype = "module" → ids.length = 1) →
      validate_answer_tasks tasks hasReadPriv userId q idstr = .ok ids) ∧
    (∀ ids ts, parse_task_ids (splitOnComma idstr) = .ok ids →
      lookup_tasks tasks ids = .ok ts →
      ¬ (∀ t ∈ ts, some t.moduleId = q.answerTypeModule ∧ hasReadPriv userId t.id = true) →
      validate_answer_tasks tasks hasReadPriv userId q idstr =
        .error (.valueError "invalid task ID")) ∧
    (∀ ids ts, parse_task_ids (splitOnComma idstr) = .ok ids →
      lookup_tasks tasks ids = .ok ts →
      (∀ t ∈ ts, some t.moduleId = q.answerTypeModule ∧ hasReadPriv userId t.id = true) →
      q.qtype = "module" → ids.length ≠ 1 →
      validate_answer_tasks tasks hasReadPriv userId q idstr =
        .error (.valueError "did not provide exactly one task ID")) := by
  refine ⟨?_, ?_, ?_, ?_⟩
  · intro ids h
    unfold validate_answer_tasks at h
    cases hp : parse_task_ids (splitOnComma idstr) with
    | error e => simp [hp] at h
    | ok ids0 =>
        simp only [hp] at h
        cases hl : lookup_tasks tasks ids0 with
        | error e => simp [hl] at h
        | ok ts =>
            simp only [hl] at h
            by_cases hall : (ts.all (fun t => (some t.moduleId == q.answerTypeModule)
                && hasReadPriv userId t.id)) = false
            · simp [hall] at h
            · have hall' : (ts.all (fun t => (some t.moduleId == q.answerTypeModule)
                  && hasReadPriv userId t.id)) = true := by simpa using hall
              rw [hall'] at h
              by_cases hlen : (q.qtype = "module" && ids0.length != 1) = true
              · simp [hlen] at h
              · have hlen' : (q.qtype = "module" && ids0.length != 1) = false := by
                  simpa using hlen
                simp only [Bool.true_eq_false, if_false, hlen', Bool.false_eq_true,
                  Except.ok.injEq] at h
                subst h
                constructor
                · intro i hi
                  rcases lookup_tasks_mem hl i hi with ⟨t, ht, hft⟩
                  have := List.all_eq_true.mp hall' t ht
                  simp only [Bool.and_eq_true, beq_iff_eq] at this
                  exact ⟨t, hft, this.1, this.2⟩
                · intro hq
                  by_contra hne
                  have : (q.qtype = "module" && ids0.length != 1) = true := by
                    simp [hq, hne]
                  rw [this] at hlen'
                  simp at hlen'
  · intro ids ts hp hl hgood hlen
    unfold validate_answer_tasks
    simp only [hp, hl]
    have hall : (ts.all (fun t => (some t.moduleId == q.answerTypeModule)
        && hasReadPriv userId t.id)) = true := by
      rw [List.all_eq_true]
      intro t ht
      have := hgood t ht
      simp [this.1, this.2]
    rw [hall]
    have hlen' : (q.qtype = "module" && ids.length != 1) = false := by
      by_cases hq : q.qtype = "module"
      · simp [hq, hlen hq]
      · simp [hq]
    simp [hlen']
  · intro ids ts hp hl hbad
    unfold validate_answer_tasks
    simp only [hp, hl]
    have hall : (ts.all (fun t => (some t.moduleId == q.answerTypeModule)
        && hasReadPriv userId t.id)) = false := by
      by_contra hne
      have hall' : (ts.all (fun t => (some t.moduleId == q.answerTypeModule)
          && hasReadPriv userId t.id)) = true := by simpa using hne
      apply hbad
      intro t ht
      have := List.all_eq_true.mp hall' t ht
      simp only [Bool.and_eq_true, beq_iff_eq] at this
      exact this
    rw [hall]
    simp
  · intro ids ts hp hl hgood hq hne
    unfold validate_answer_tasks
    simp only [hp, hl]
    have hall : (ts.all (fun t => (some t.moduleId == q.answerTypeModule)
        && hasReadPriv userId t.id)) = true := by
      rw [List.all_eq_true]
      intro t ht
      have := hgood t ht
      simp [this.1, this.2]
    rw [hall]
    have hlen : (q.qtype = "module" && ids.length != 1) = true := by simp [hq, hne]
    simp [hlen]

theorem validate_answer_tasks_sanity_single :
    validate_answer_tasks [wtask1, wtask2] allowAll 7 wq2 "2" = .ok [2] := rfl

theorem validate_answer_tasks_sanity_wrong_module :
    validate_answer_tasks [wtask1, wtask2] allowAll 7 wq2 "1" =
      .error (.valueError "invalid task ID") := rfl

theorem validate_answer_tasks_sanity_no_priv :
    validate_answer_tasks [wtask1, wtask2] denyAll 7 wq2 "2" =
      .error (.valueError "invalid task ID") := rfl

theorem validate_answer_tasks_sanity_two_for_module :
    validate_answer_tasks [wtask1, wtask2] allowAll 7 wq2 "2,2" =
      .error (.valueError "did not provide exactly one task ID") := rfl

/- ## Helper lemmas: the skip and clear paths of next_question -/

theorem parse_method_value_skip (q : QuestionDef) (vals : List String) (fv : Option Nat) :
    parse_method_value q "skip" vals fv = .ok (.parsed none false) := rfl

theorem parse_method_value_clear (q : QuestionDef) (vals : List String) (fv : Option Nat) :
    parse_method_value q "clear" vals fv = .ok (.parsed none true) := rfl

theorem computeLinkage_none (mods : List ModuleDef) (rp : Nat → Nat → Bool)
    (userId : Nat) (task : Task) (q : QuestionDef) (cleared : Bool)
    (red : String) (s : State) :
    computeLinkage mods rp userId task q none cleared red s =
      .ok { value := none, answeredByTasks := [], answeredByFile := none
            state := s, redirect := red } := by
  unfold computeLinkage
  by_cases h1 : ((q.qtype = "module" || q.qtype = "module-set") && !cleared) = true
  · rw [if_pos h1]
    simp
  · rw [if_neg h1]
    by_cases h2 : (q.qtype = "file" && !cleared) = true
    · rw [if_pos h2]
    · rw [if_neg h2]

theorem has_answer_of_head {ta : TaskAnswer} {e : AnswerEntry}
    (h : ta.history.head? = some e) (hc : e.cleared = false) : ta.has_answer = true := by
  unfold TaskAnswer.has_answer
  simp [h, hc]

theorem nqp_skip_state (mods : List ModuleDef) (wp rp : Nat → Nat → Bool) (now : Nat)
    (s : State) (req : PostReq) (task : Task) (m : ModuleDef) (q : QuestionDef)
    (hT : findTaskInOrg s req.taskId req.orgId = some task)
    (hW : wp req.userId task.id = true)
    (hM : findModule mods task.moduleId = some m)
    (hQ : findQuestion m req.questionId = some q)
    (hS : req.method = "skip") :
    (next_question_post mods wp rp now s req).1 = .jsonOk req.path ∧
    (next_question_post mods wp rp now s req).2.answers =
      (setTA (getOrCreateTA s task.id q.id).2
        ((getOrCreateTA s task.id q.id).1.save_answer none [] none).1).answers := by
  unfold next_question_post
  simp only [hT, hW, if_true, hM, hQ]
  unfold nqpCore
  rw [hS]
  simp only [parse_method_value_skip, computeLinkage_none]
  simp [addEvent]

theorem nqp_clear_state (mods : List ModuleDef) (wp rp : Nat → Nat → Bool) (now : Nat)
    (s : State) (req : PostReq) (task : Task) (m : ModuleDef) (q : QuestionDef)
    (hT : findTaskInOrg s req.taskId req.orgId = some task)
    (hW : wp req.userId task.id = true)
    (hM : findModule mods task.moduleId = some m)
    (hQ : findQuestion m req.questionId = some q)
    (hS : req.method = "clear") :
    (next_question_post mods wp rp now s req).1 = .jsonOk req.path ∧
    (next_question_post mods wp rp now s req).2.answers =
      (setTA (getOrCreateTA s task.id q.id).2
        (getOrCreateTA s task.id q.id).1.clear_answer).answers := by
  unfold next_question_post
  simp only [hT, hW, if_true, hM, hQ]
  unfold nqpCore
  rw [hS]
  simp only [parse_method_value_clear, computeLinkage_none]
  simp [addEvent]

/-- Claim C1: skip and clear are distinct.  After a skip the question holds
an explicit null answer record and is in the answered state (it has an
answer, so it is not re-prompted: a single-question resolution marks it
answered); after a clear the question has no effective answer and is back in
the unanswered state (resolution marks it can-answer-now again); and the
view's read of a current answer treats a cleared record as if the question
had never been answered. -/
theorem C1_skip_and_clear (mods : List ModuleDef) (wp rp : Nat → Nat → Bool)
    (now : Nat) (s : State) (req : PostReq) (task : Task) (m : ModuleDef) (q : QuestionDef)
    (hT : findTaskInOrg s req.taskId req.orgId = some task)
    (hW : wp req.userId task.id = true)
    (hM : findModule mods task.moduleId = some m)
    (hQ : findQuestion m req.questionId = some q) :
    (req.method = "skip" →
      (next_question_post mods wp rp now s req).2.effectiveAnswer task.id q.id =
        some ⟨none, [], none, false⟩ ∧
      (∃ ta, findTaskAnswer (next_question_post mods wp rp now s req).2 task.id q.id = some ta ∧
        ta.has_answer = true) ∧
      (q.askCondition = none →
        resolveQuestions task.id [q] [] (next_question_post mods wp rp now s req).2.answers =
          .ok ([⟨q.key, .answered, none⟩], [(q.key, none)],
            (next_question_post mods wp rp now s req).2.answers))) ∧
    (req.method = "clear" →
      (next_question_post mods wp rp now s req).2.effectiveAnswer task.id q.id = none ∧
      (∀ ta, findTaskAnswer (next_question_post mods wp rp now s req).2 task.id q.id = some ta →
        ta.has_answer = false) ∧
      (q.askCondition = none →
        resolveQuestions task.id [q] [] (next_question_post mods wp rp now s req).2.answers =
          .ok ([⟨q.key, .canAnswer, none⟩], [(q.key, none)],
            (next_question_post mods wp rp now s req).2.answers))) ∧
    (∀ x e, TaskAnswer.get_current_answer x = some e → e.cleared = true →
      effectiveEntry (some x) = none) := by
  refine ⟨?_, ?_, ?_⟩
  · intro hS
    obtain ⟨hresp, hsA⟩ := nqp_skip_state mods wp rp now s req task m q hT hW hM hQ hS
    set tas := getOrCreateTA s task.id q.id with htas
    set saved := tas.1.save_answer none [] none with hsaved
    obtain ⟨hid1, hid2⟩ := getOrCreateTA_ids s task.id q.id
    obtain ⟨hsid1, hsid2⟩ := save_answer_ids tas.1 none [] none
    have hfind : findTaskAnswer (next_question_post mods wp rp now s req).2 task.id q.id =
        some saved.1 := by
      unfold findTaskAnswer
      rw [hsA]
      have hex : ∃ x ∈ tas.2.answers,
          x.taskId = saved.1.taskId ∧ x.questionId = saved.1.questionId := by
        refine ⟨tas.1, getOrCreateTA_mem s task.id q.id, ?_, ?_⟩
        · rw [hsid1]
        · rw [hsid2]
      have := @findTaskAnswer_setTA tas.2 saved.1 hex
      unfold findTaskAnswer at this
      rw [hsid1, hid1, hsid2, hid2] at this
      exact this
    have hhead := save_answer_head tas.1 none [] none
    have heff : (next_question_post mods wp rp now s req).2.effectiveAnswer task.id q.id =
        some ⟨none, [], none, false⟩ := by
      unfold State.effectiveAnswer
      rw [hfind]
      exact effectiveEntry_of_head hhead rfl
    refine ⟨heff, ⟨saved.1, hfind, has_answer_of_head hhead rfl⟩, ?_⟩
    intro hc
    unfold resolveQuestions
    rw [hc]
    have hfind' : ((next_question_post mods wp rp now s req).2.answers.find? (fun ta =>
        ta.taskId == task.id && ta.questionId == q.id)) = some saved.1 := hfind
    simp only [hfind']
    rw [effectiveEntry_of_head hhead rfl]
    unfold resolveQuestions
    simp
  · intro hS
    obtain ⟨hresp, hsA⟩ := nqp_clear_state mods wp rp now s req task m q hT hW hM hQ hS
    set tas := getOrCreateTA s task.id q.id with htas
    obtain ⟨hid1, hid2⟩ := getOrCreateTA_ids s task.id q.id
    obtain ⟨hcid1, hcid2⟩ := clear_answer_ids tas.1
    have hfind : findTaskAnswer (next_question_post mods wp rp now s req).2 task.id q.id =
        some tas.1.clear_answer := by
      unfold findTaskAnswer
      rw [hsA]
      have hex : ∃ x ∈ tas.2.answers,
          x.taskId = tas.1.clear_answer.taskId ∧ x.questionId = tas.1.clear_answer.questionId := by
        refine ⟨tas.1, getOrCreateTA_mem s task.id q.id, ?_, ?_⟩
        · rw [hcid1]
        · rw [hcid2]
      have := @findTaskAnswer_setTA tas.2 tas.1.clear_answer hex
      unfold findTaskAnswer at this
      rw [hcid1, hid1, hcid2, hid2] at this
      exact this
    have heff : (next_question_post mods wp rp now s req).2.effectiveAnswer task.id q.id = none := by
      unfold State.effectiveAnswer
      rw [hfind]
      exact effectiveEntry_clear tas.1
    have hna : tas.1.clear_answer.has_answer = false := by
      unfold TaskAnswer.clear_answer
      by_cases hh : tas.1.has_answer
      · rw [if_pos hh]
        unfold TaskAnswer.has_answer
        simp
      · rw [if_neg hh]
        simpa using hh
    refine ⟨heff, ?_, ?_⟩
    · intro ta hta
      rw [hfind] at hta
      cases hta
      exact hna
    · intro hc
      unfold resolveQuestions
      rw [hc]
      have hfind' : ((next_question_post mods wp rp now s req).2.answers.find? (fun ta =>
          ta.taskId == task.id && ta.questionId == q.id)) = some tas.1.clear_answer := hfind
      simp only [hfind']
      rw [effectiveEntry_clear tas.1]
      unfold resolveQuestions
      simp
  · intro x e h hcl
    unfold effectiveEntry
    simp [h, hcl]

theorem C1_skip_and_clear_witness :
    (next_question_post wmods allowAll allowAll 5 wstate wskipReq).2.effectiveAnswer 1 1 =
      some ⟨none, [], none, false⟩ :=
  ((C1_skip_and_clear wmods allowAll allowAll 5 wstate wskipReq wtask1 wmod10 wq1
    rfl rfl rfl rfl).1 rfl).1

/- ## Claim C6: idempotent, mutation-free resolution -/

theorem resolveQuestions_store {taskId : Nat} :
    ∀ (qs : List QuestionDef) (dict : List (String × Option Value))
      (store : List TaskAnswer) {rs : List ResolvedQ}
      {d : List (String × Option Value)} {st : List TaskAnswer},
      resolveQuestions taskId qs dict store = .ok (rs, d, st) → st = store := by
  intro qs
  induction qs with
  | nil =>
      intro dict store rs d st h
      unfold resolveQuestions at h
      simp only [Except.ok.injEq, Prod.mk.injEq] at h
      exact h.2.2.symm
  | cons q rest ih =>
      intro dict store rs d st h
      unfold resolveQuestions at h
      cases hc : (match q.askCondition with
                  | none => Except.ok true
                  | some c => evalCond dict c) with
      | error e => simp [hc] at h
      | ok vis =>
          simp only [hc] at h
          cases vis with
          | true =>
              simp only [if_true] at h
              rcases Option.eq_none_or_eq_some (effectiveEntry (store.find? (fun ta =>
                  ta.taskId == taskId && ta.questionId == q.id))) with he | ⟨e, he⟩
              · simp only [he] at h
                cases hr : resolveQuestions taskId rest (dict ++ [(q.key, none)]) store with
                | error er => simp [hr] at h
                | ok trip =>
                    simp only [hr] at h
                    rcases trip with ⟨rs', d', st'⟩
                    simp only [Except.ok.injEq, Prod.mk.injEq] at h
                    rw [← h.2.2]
                    exact ih _ _ hr
              · simp only [he] at h
                cases hr : resolveQuestions taskId rest (dict ++ [(q.key, e.value)]) store with
                | error er => simp [hr] at h
                | ok trip =>
                    simp only [hr] at h
                    rcases trip with ⟨rs', d', st'⟩
                    simp only [Except.ok.injEq, Prod.mk.injEq] at h
                    rw [← h.2.2]
                    exact ih _ _ hr
          | false =>
              simp only [Bool.false_eq_true, if_false] at h
              cases hr : resolveQuestions taskId rest (dict ++ [(q.key, none)]) store with
              | error er => simp [hr] at h
              | ok trip =>
                  simp only [hr] at h
                  rcases trip with ⟨rs', d', st'⟩
                  simp only [Except.ok.injEq, Prod.mk.injEq] at h
                  rw [← h.2.2]
                  exact ih _ _ hr

/-- Claim C6: resolving a Task's answer set reads the Answer Store but never
mutates it - the store threaded through resolution comes back exactly as it
went in - so resolving again, in the state the first resolution left behind,
yields the identical output. -/
theorem C6_resolution_idempotent (mods : List ModuleDef) (s : State) (task : Task)
    (rs : List ResolvedQ) (d : List (String × Option Value)) (st : List TaskAnswer)
    (h : with_extended_info mods s task = .ok (rs, d, st)) :
    st = s.answers ∧
    with_extended_info mods { s with answers := st } task = .ok (rs, d, st) := by
  have hst : st = s.answers := by
    unfold with_extended_info at h
    cases hm : findModule mods task.moduleId with
    | none => rw [hm] at h; simp at h
    | some m =>
        rw [hm] at h
        exact resolveQuestions_store m.questions [] s.answers h
  subst hst
  exact ⟨rfl, h⟩

theorem C6_resolution_idempotent_witness :
    ([wta12] : List TaskAnswer) = wstate.answers ∧
    with_extended_info wmods { wstate with answers := [wta12] } wtask1 =
      .ok ([⟨"intro", .canAnswer, none⟩, ⟨"sub", .answered, none⟩, ⟨"extra", .imputed, none⟩],
        [("intro", none), ("sub", none), ("extra", none)], [wta12]) :=
  C6_resolution_idempotent wmods wstate wtask1 _ _ _ rfl

/- ## Claim C7: rendering failures -/

/-- Claim C7 counterexample: not every document-rendering request turns a
missing template variable into a hard error.  The project view requests
rendering with hard_fail=False (siteapp/views.py lines 169-176), and there a
template referencing a variable absent from the dictionary renders to an ok
result carrying an error-notice document - no error is raised. -/
theorem C7_counterexample :
    projectViewRenderDocs [("a", some (.vstr "x"))] [⟨none, [.var "missing"]⟩] =
      .ok [⟨none, "template error: undefined variable missing", true⟩] := rfl

/-- Claim C7 (as amended): in the default hard-failure mode - the one the
module-finished page uses - a template variable missing from the
resolved-plus-imputed dictionary is a hard error for the whole request, not
a silent blank, while a variable present with a null (skipped or imputed)
value renders as empty text without raising; the project view's
hard_fail=False rendering replaces a failing document with an error notice
instead of raising. -/
theorem C7_render_hard_fail (dict : List (String × Option Value)) (k : String)
    (rest tmpl : List TemplatePart) (tab : Option String) (docs : List OutputDoc) :
    (dict.lookup k = none →
      render_content dict (.var k :: rest) = .error ("undefined variable " ++ k)) ∧
    (∀ e, render_content dict tmpl = .error e →
      moduleFinishedRenderDocs dict (⟨tab, tmpl⟩ :: docs) = .error e) ∧
    (∀ r, dict.lookup k = some none → render_content dict rest = .ok r →
      render_content dict (.var k :: rest) = .ok r) ∧
    (∀ e, render_content dict tmpl = .error e →
      projectViewRenderDocs dict [⟨tab, tmpl⟩] =
        .ok [⟨tab, "template error: " ++ e, true⟩]) := by
  refine ⟨?_, ?_, ?_, ?_⟩
  · intro hk
    unfold render_content
    rw [hk]
  · intro e he
    unfold moduleFinishedRenderDocs render_output_documents
    rw [he]
    simp
  · intro r hk hr
    unfold render_content
    rw [hk, hr]
    have hv : valueText none ++ r = r := by cases r; rfl
    simp only [hv]
  · intro e he
    unfold projectViewRenderDocs render_output_documents
    rw [he]
    simp
    unfold render_output_documents
    rfl

/- ## Reachability in the task graph -/

theorem Reaches.trans {E : List (Nat × Nat)} {a b c : Nat}
    (h1 : Reaches E a b) (h2 : Reaches E b c) : Reaches E a c := by
  induction h1 with
  | refl _ => exact h2
  | step he _ ih => exact .step he (ih h2)

theorem reaches_of_edge {E : List (Nat × Nat)} {a b : Nat} (h : (a, b) ∈ E) :
    Reaches E a b := .step h (.refl b)

theorem Reaches.mono {E E' : List (Nat × Nat)} (hsub : E ⊆ E') {a b : Nat}
    (h : Reaches E a b) : Reaches E' a b := by
  induction h with
  | refl a => exact .refl a
  | step he _ ih => exact .step (hsub he) ih

theorem mem_succsOf {E : List (Nat × Nat)} {a x : Nat} :
    x ∈ succsOf E a ↔ (a, x) ∈ E := by
  unfold succsOf
  simp only [List.mem_map, List.mem_filter, beq_iff_eq]
  constructor
  · rintro ⟨⟨u, v⟩, ⟨hm, h1⟩, h2⟩
    simp only at h1 h2
    subst h1; subst h2
    exact hm
  · intro h
    exact ⟨(a, x), ⟨h, rfl⟩, rfl⟩

theorem mem_stepSet {E : List (Nat × Nat)} {S : List Nat} {x : Nat} :
    x ∈ stepSet E S ↔ x ∈ S ∨ ∃ a ∈ S, (a, x) ∈ E := by
  unfold stepSet
  simp [List.mem_dedup, List.mem_append, List.mem_flatMap, mem_succsOf]

theorem subset_stepSet {E : List (Nat × Nat)} {S : List Nat} : S ⊆ stepSet E S :=
  fun _ hx => mem_stepSet.mpr (.inl hx)

theorem stepSet_nodup (E : List (Nat × Nat)) (S : List Nat) : (stepSet E S).Nodup :=
  List.nodup_dedup _

theorem stepSet_subset {E : List (Nat × Nat)} {U S : List Nat}
    (hS : S ⊆ U) (hE : ∀ e ∈ E, e.2 ∈ U) : stepSet E S ⊆ U := by
  intro x hx
  rcases mem_stepSet.mp hx with h | ⟨a, _, he⟩
  · exact hS h
  · exact hE (a, x) he

theorem subset_closeSet (E : List (Nat × Nat)) :
    ∀ (fuel : Nat) (S : List Nat), S ⊆ closeSet E fuel S := by
  intro fuel
  induction fuel with
  | zero => intro S x hx; exact hx
  | succ n ih =>
      intro S
      unfold closeSet
      by_cases h : (stepSet E S).length = S.length
      · rw [if_pos h]
        exact fun _ hx => hx
      · rw [if_neg h]
        exact fun x hx => ih (stepSet E S) (subset_stepSet hx)

theorem closeSet_stable {E : List (Nat × Nat)} {U : List Nat}
    (hE : ∀ e ∈ E, e.2 ∈ U) :
    ∀ (fuel : Nat) (S : List Nat), S.Nodup → S ⊆ U →
      U.length + 1 ≤ fuel + S.length →
      stepSet E (closeSet E fuel S) ⊆ closeSet E fuel S := by
  intro fuel
  induction fuel with
  | zero =>
      intro S hN hS hlen
      exfalso
      have hle : S.length ≤ U.length := (List.subperm_of_subset hN hS).length_le
      omega
  | succ n ih =>
      intro S hN hS hlen
      unfold closeSet
      by_cases h : (stepSet E S).length = S.length
      · rw [if_pos h]
        have hsp : List.Subperm S (stepSet E S) := List.subperm_of_subset hN subset_stepSet
        have hperm : List.Perm S (stepSet E S) := hsp.perm_of_length_le (le_of_eq h)
        exact fun x hx => hperm.symm.subset hx
      · rw [if_neg h]
        have hle : S.length ≤ (stepSet E S).length :=
          (List.subperm_of_subset hN subset_stepSet).length_le
        exact ih (stepSet E S) (stepSet_nodup E S) (stepSet_subset hS hE) (by omega)

theorem reaches_mem_of_closed {E : List (Nat × Nat)} {S : List Nat}
    (hC : stepSet E S ⊆ S) : ∀ {a b : Nat}, Reaches E a b → a ∈ S → b ∈ S := by
  intro a b h
  induction h with
  | refl _ => exact fun ha => ha
  | step he _ ih =>
      intro ha
      exact ih (hC (mem_stepSet.mpr (.inr ⟨_, ha, he⟩)))

theorem reaches_mem_reachableFrom {E : List (Nat × Nat)} {a b : Nat}
    (h : Reaches E a b) : b ∈ reachableFrom E a := by
  unfold reachableFrom
  have hE : ∀ e ∈ E, e.2 ∈ (a :: E.map Prod.snd).dedup := by
    intro e he
    rw [List.mem_dedup]
    exact List.mem_cons_of_mem _ (List.mem_map_of_mem _ he)
  have hS : [a] ⊆ (a :: E.map Prod.snd).dedup := by
    intro x hx
    rw [List.mem_dedup]
    simp only [List.mem_singleton] at hx
    subst hx
    exact List.mem_cons_self _ _
  have hstable := closeSet_stable hE ((a :: E.map Prod.snd).dedup.length + 1) [a]
    (List.nodup_singleton a) hS (by omega)
  exact reaches_mem_of_closed hstable h
    (subset_closeSet E _ [a] (List.mem_singleton.mpr rfl))

theorem reaches_of_mem_stepSet {E : List (Nat × Nat)} {S : List Nat} {a : Nat}
    (hS : ∀ x ∈ S, Reaches E a x) : ∀ x ∈ stepSet E S, Reaches E a x := by
  intro x hx
  rcases mem_stepSet.mp hx with h | ⟨v, hv, he⟩
  · exact hS x h
  · exact (hS v hv).trans (reaches_of_edge he)

theorem reaches_of_mem_closeSet {E : List (Nat × Nat)} {a : Nat} :
    ∀ (fuel : Nat) (S : List Nat), (∀ x ∈ S, Reaches E a x) →
      ∀ x ∈ closeSet E fuel S, Reaches E a x := by
  intro fuel
  induction fuel with
  | zero => intro S hS; exact hS
  | succ n ih =>
      intro S hS
      unfold closeSet
      by_cases h : (stepSet E S).length = S.length
      · rw [if_pos h]; exact hS
      · rw [if_neg h]; exact ih _ (reaches_of_mem_stepSet hS)

/-- The computable ancestor test agrees with reachability: this is the
faithfulness of the modelled cycle guard. -/
theorem isAncestorOf_iff {E : List (Nat × Nat)} {c p : Nat} :
    isAncestorOf E c p = true ↔ Reaches E c p := by
  unfold isAncestorOf
  rw [decide_eq_true_eq]
  constructor
  · intro h
    unfold reachableFrom at h
    refine reaches_of_mem_closeSet _ _ ?_ p h
    intro x hx
    simp only [List.mem_singleton] at hx
    rw [hx]
    exact .refl c
  · exact reaches_mem_reachableFrom

theorem reaches_append_cases {E : List (Nat × Nat)} {cs : List Nat} {p : Nat}
    (hcs : ∀ c ∈ cs, ¬ Reaches E c p) :
    ∀ {a b : Nat}, Reaches (cs.map (fun c => (p, c)) ++ E) a b →
      Reaches E a b ∨ (Reaches E a p ∧ ∃ c ∈ cs, Reaches E c b) := by
  intro a b h
  induction h with
  | refl x => exact .inl (.refl x)
  | @step a' v' b' he hr ih =>
      rcases List.mem_append.mp he with hnew | hold
      · rcases List.mem_map.mp hnew with ⟨c, hc, heq⟩
        have h1 : p = a' := congrArg Prod.fst heq
        have h2 : c = v' := congrArg Prod.snd heq
        rcases ih with hih | ⟨hih, c2, hc2, hr2⟩
        · refine .inr ⟨?_, c, hc, ?_⟩
          · rw [← h1]; exact .refl p
          · rw [h2]; exact hih
        · refine absurd ?_ (hcs c hc)
          rw [h2]
          exact hih
      · rcases ih with h1 | ⟨h1, c2, hc2, hr2⟩
        · exact .inl (.step hold h1)
        · exact .inr ⟨.step hold h1, c2, hc2, hr2⟩

theorem acyclic_append_new {E : List (Nat × Nat)} {cs : List Nat} {p : Nat}
    (hA : Acyclic E) (hcs : ∀ c ∈ cs, ¬ Reaches E c p) :
    Acyclic (cs.map (fun c => (p, c)) ++ E) := by
  intro e he hR
  rcases List.mem_append.mp he with hnew | hold
  · rcases List.mem_map.mp hnew with ⟨c, hc, heq⟩
    rw [← heq] at hR
    rcases reaches_append_cases hcs hR with h1 | ⟨h1, c3, hc3, hr3⟩
    · exact hcs c hc h1
    · exact hcs c hc h1
  · rcases reaches_append_cases hcs hR with h1 | ⟨h1, c', hc', h2⟩
    · exact hA e hold h1
    · exact hcs c' hc' (h2.trans (.step hold h1))

theorem acyclic_of_subset {E' E : List (Nat × Nat)} (hsub : E' ⊆ E)
    (hA : Acyclic E) : Acyclic E' := by
  intro e he hR
  exact hA e (hsub he) (hR.mono hsub)

/- ## Edges of states -/

theorem mem_edges {s : State} {x : Nat × Nat} :
    x ∈ State.edges s ↔ ∃ ta ∈ s.answers, x ∈ edgesOfTA ta := by
  unfold State.edges
  exact List.mem_flatMap

theorem edges_congr {s1 s2 : State} (h : s1.answers = s2.answers) :
    State.edges s1 = State.edges s2 := by
  unfold State.edges
  rw [h]

theorem edges_getOrCreate (s : State) (tid qid : Nat) :
    State.edges (getOrCreateTA s tid qid).2 = State.edges s := by
  unfold getOrCreateTA
  cases h : findTaskAnswer s tid qid with
  | some ta => rfl
  | none =>
      unfold State.edges
      rw [List.flatMap_cons]
      rfl

theorem edges_setTA_subset (s : State) (ta : TaskAnswer) :
    State.edges (setTA s ta) ⊆ edgesOfTA ta ++ State.edges s := by
  intro x hx
  rcases mem_edges.mp hx with ⟨y, hy, hxy⟩
  unfold setTA at hy
  simp only at hy
  rcases List.mem_map.mp hy with ⟨z, hz, hzy⟩
  rw [List.mem_append]
  by_cases hp : (z.taskId == ta.taskId && z.questionId == ta.questionId) = true
  · rw [if_pos hp] at hzy
    rw [← hzy] at hxy
    exact .inl hxy
  · rw [if_neg hp] at hzy
    rw [← hzy] at hxy
    exact .inr (mem_edges.mpr ⟨z, hz, hxy⟩)

theorem edgesOfTA_mem_subset {s : State} {ta : TaskAnswer} (h : ta ∈ s.answers) :
    edgesOfTA ta ⊆ State.edges s :=
  fun _ hx => mem_edges.mpr ⟨ta, h, hx⟩

theorem edgesOfTA_save (ta : TaskAnswer) (value : Option Value) (tasks : List Nat)
    (file : Option Nat) :
    edgesOfTA (ta.save_answer value tasks file).1 =
      tasks.map (fun c => (ta.taskId, c)) := by
  unfold edgesOfTA
  rw [save_answer_head]
  simp [(save_answer_ids ta value tasks file).1]

theorem edgesOfTA_clear (ta : TaskAnswer) :
    edgesOfTA ta.clear_answer ⊆ edgesOfTA ta := by
  unfold TaskAnswer.clear_answer
  by_cases h : ta.has_answer
  · rw [if_pos h]
    intro x hx
    unfold edgesOfTA at hx
    simp at hx
  · rw [if_neg h]
    exact fun _ hx => hx

theorem edges_addEvent (x : State) (e : Event) :
    State.edges (addEvent x e) = State.edges x := rfl

/-- Every branch of the answered-by-task computation leaves the answer rows
alone, so it contributes no new dependency edges. -/
theorem computeLinkage_answers {mods : List ModuleDef} {rp : Nat → Nat → Bool}
    {userId : Nat} {task : Task} {q : QuestionDef} {value : Option Value}
    {cleared : Bool} {red : String} {s : State} {link : LinkResult}
    (h : computeLinkage mods rp userId task q value cleared red s = .ok link) :
    link.state.answers = s.answers := by
  unfold computeLinkage at h
  split at h
  · split at h
    · split at h
      · exact absurd h (by simp)
      · simp only [Except.ok.injEq] at h
        rw [← h]
    · split at h
      · simp only [Except.ok.injEq] at h
        rw [← h]
      · split at h
        · simp only [Except.ok.injEq] at h
          rw [← h]
        · split at h
          · exact absurd h (by simp)
          · simp only [Except.ok.injEq] at h
            rw [← h]
  · split at h
    · simp only [Except.ok.injEq] at h
      rw [← h]
    · simp only [Except.ok.injEq] at h
      rw [← h]

/- ## The save path of next_question: validation, guard, cycle prevention -/

theorem parse_method_value_save_single (q : QuestionDef) (v : String) (fv : Option Nat)
    (h1 : q.qtype ≠ "file") (h2 : q.qtype ≠ "multiple-choice")
    (h3 : q.qtype ≠ "external-function") :
    parse_method_value q "save" [v] fv = .ok (.parsed (some (.vstr v)) false) := by
  unfold parse_method_value question_input_parse
  simp [h1, h2, h3]

theorem computeLinkage_existing (mods : List ModuleDef) (rp : Nat → Nat → Bool)
    (userId : Nat) (task : Task) (q : QuestionDef) (v : String) (red : String) (s : State)
    (hmod : q.qtype = "module" ∨ q.qtype = "module-set") (hv : v ≠ "__new") :
    computeLinkage mods rp userId task q (some (.vstr v)) false red s =
      (match validate_answer_tasks s.tasks rp userId q v with
       | .error e => .error e
       | .ok ids => .ok { value := none, answeredByTasks := ids, answeredByFile := none
                          state := s, redirect := red }) := by
  unfold computeLinkage
  have h1 : ((q.qtype = "module" || q.qtype = "module-set") && !false) = true := by
    rcases hmod with h | h <;> simp [h]
  rw [if_pos h1]
  have h2 : (some (Value.vstr v) == some (Value.vstr "__new")) = false := by
    simp [hv]
  rw [h2]
  have h3 : (some (Value.vstr v) == (none : Option Value)) = false := rfl
  rw [h3]
  rfl

/-- The cleared/save tail of the core (after the guard has been passed or
failed) preserves acyclicity of the task graph. -/
theorem nqpCore_acyclic (mods : List ModuleDef) (rp : Nat → Nat → Bool) (now : Nat)
    (s : State) (task : Task) (q : QuestionDef) (req : PostReq)
    (hA : Acyclic (State.edges s)) :
    ∀ r s', nqpCore mods rp now s task q req = .ok (r, s') →
      Acyclic (State.edges s') := by
  intro r s' h
  unfold nqpCore at h
  cases hp : parse_method_value q req.method req.value req.fileValue with
  | error e => simp [hp] at h
  | ok pm =>
      simp only [hp] at h
      cases pm with
      | earlyOk =>
          simp only [Except.ok.injEq, Prod.mk.injEq] at h
          rw [← h.2]
          exact hA
      | invalid msg =>
          simp only [Except.ok.injEq, Prod.mk.injEq] at h
          rw [← h.2]
          exact hA
      | parsed value cleared =>
          simp only at h
          cases hl : computeLinkage mods rp req.userId task q value cleared req.path
              (getOrCreateTA s task.id q.id).2 with
          | error e => simp [hl] at h
          | ok link =>
              simp only [hl] at h
              have hLans : link.state.answers = (getOrCreateTA s task.id q.id).2.answers :=
                computeLinkage_answers hl
              have hLedges : State.edges link.state = State.edges s := by
                rw [edges_congr hLans, edges_getOrCreate]
              have hmem : (getOrCreateTA s task.id q.id).1 ∈ link.state.answers := by
                rw [hLans]
                exact getOrCreateTA_mem s task.id q.id
              cases cleared with
              | true =>
                  simp only [if_true] at h
                  simp only [Except.ok.injEq, Prod.mk.injEq] at h
                  rw [← h.2, edges_addEvent]
                  refine acyclic_of_subset ?_ hA
                  intro x hx
                  rcases List.mem_append.mp (edges_setTA_subset _ _ hx) with h1 | h1
                  · exact hLedges ▸ (edgesOfTA_mem_subset hmem (edgesOfTA_clear _ h1))
                  · exact hLedges ▸ h1
              | false =>
                  simp only [Bool.false_eq_true, if_false] at h
                  by_cases hg : (link.answeredByTasks.any
                      (fun c => isAncestorOf (State.edges link.state) c task.id)) = true
                  · simp [hg] at h
                  · have hg' : (link.answeredByTasks.any
                        (fun c => isAncestorOf (State.edges link.state) c task.id)) = false := by
                      simpa using hg
                    simp only [hg', Bool.false_eq_true, if_false] at h
                    simp only [Except.ok.injEq, Prod.mk.injEq] at h
                    rw [← h.2, edges_addEvent]
                    have hguard : ∀ c ∈ link.answeredByTasks,
                        ¬ Reaches (State.edges s) c task.id := by
                      intro c hc hr
                      have hanc : isAncestorOf (State.edges link.state) c task.id = true := by
                        rw [hLedges]
                        exact isAncestorOf_iff.mpr hr
                      have hany : (link.answeredByTasks.any
                          (fun x => isAncestorOf (State.edges link.state) x task.id)) = true :=
                        List.any_eq_true.mpr ⟨c, hc, hanc⟩
                      rw [hg'] at hany
                      exact absurd hany (by simp)
                    have hAcy2 : Acyclic (link.answeredByTasks.map
                        (fun c => (task.id, c)) ++ State.edges s) :=
                      acyclic_append_new hA hguard
                    refine acyclic_of_subset ?_ hAcy2
                    intro x hx
                    rcases List.mem_append.mp (edges_setTA_subset _ _ hx) with h1 | h1
                    · rw [edgesOfTA_save, (getOrCreateTA_ids s task.id q.id).1] at h1
                      exact List.mem_append.mpr (.inl h1)
                    · rw [hLedges] at h1
                      exact List.mem_append.mpr (.inr h1)

/-- Claim C4: cycle prevention for task linkage.  First, a proposed answer
that links an existing Task which already reaches (is an ancestor of) the
Task owning the question is rejected with CycleError and the state is left
exactly as it was - no mutation survives.  Second, no request that the
handler accepts ever creates a dependency cycle: the handler preserves
acyclicity of the task graph. -/
theorem C4_cycle_prevention :
    (∀ (mods : List ModuleDef) (wp rp : Nat → Nat → Bool) (now : Nat) (s : State)
      (req : PostReq) (task : Task) (m : ModuleDef) (q : QuestionDef)
      (v : String) (ids : List Nat) (c : Nat),
      findTaskInOrg s req.taskId req.orgId = some task →
      wp req.userId task.id = true →
      findModule mods task.moduleId = some m →
      findQuestion m req.questionId = some q →
      req.method = "save" →
      (q.qtype = "module" ∨ q.qtype = "module-set") →
      req.value = [v] →
      v ≠ "__new" →
      validate_answer_tasks s.tasks rp req.userId q v = .ok ids →
      c ∈ ids →
      Reaches (State.edges s) c task.id →
      next_question_post mods wp rp now s req = (.raised "CycleError", s)) ∧
    (∀ (mods : List ModuleDef) (wp rp : Nat → Nat → Bool) (now : Nat) (s : State)
      (req : PostReq) (r : Response) (s' : State),
      Acyclic (State.edges s) →
      next_question_post mods wp rp now s req = (r, s') →
      Acyclic (State.edges s')) := by
  constructor
  · intro mods wp rp now s req task m q v ids c hT hW hM hQ hS hmod hval hv hV hc hReach
    have hq1 : q.qtype ≠ "file" := by rcases hmod with h | h <;> simp [h]
    have hq2 : q.qtype ≠ "multiple-choice" := by rcases hmod with h | h <;> simp [h]
    have hq3 : q.qtype ≠ "external-function" := by rcases hmod with h | h <;> simp [h]
    unfold next_question_post
    simp only [hT, hW, if_true, hM, hQ]
    have hcore : nqpCore mods rp now s task q req = .error .cycleError := by
      unfold nqpCore
      rw [hS, hval, parse_method_value_save_single q v req.fileValue hq1 hq2 hq3]
      simp only
      rw [computeLinkage_existing mods rp req.userId task q v req.path
        (getOrCreateTA s task.id q.id).2 hmod hv]
      rw [(getOrCreateTA_frame s task.id q.id).1, hV]
      simp only
      have hguard : (ids.any (fun x => isAncestorOf
          (State.edges (getOrCreateTA s task.id q.id).2) x task.id)) = true := by
        rw [List.any_eq_true]
        refine ⟨c, hc, ?_⟩
        rw [edges_getOrCreate]
        exact isAncestorOf_iff.mpr hReach
      simp [hguard]
    rw [hcore]
    rfl
  · intro mods wp rp now s req r s' hA hrun
    unfold next_question_post at hrun
    rcases Option.eq_none_or_eq_some (findTaskInOrg s req.taskId req.orgId) with hT | ⟨task, hT⟩
    · rw [hT] at hrun
      simp only [Prod.mk.injEq] at hrun
      rw [← hrun.2]
      exact hA
    · simp only [hT] at hrun
      by_cases hW : wp req.userId task.id = true
      · simp only [hW, if_true] at hrun
        rcases Option.eq_none_or_eq_some (findModule mods task.moduleId) with hM | ⟨m, hM⟩
        · simp only [hM, Prod.mk.injEq] at hrun
          rw [← hrun.2]
          exact hA
        · simp only [hM] at hrun
          rcases Option.eq_none_or_eq_some (findQuestion m req.questionId) with hQ | ⟨q, hQ⟩
          · simp only [hQ, Prod.mk.injEq] at hrun
            rw [← hrun.2]
            exact hA
          · simp only [hQ] at hrun
            cases hcore : nqpCore mods rp now s task q req with
            | error e =>
                simp only [hcore, Prod.mk.injEq] at hrun
                rw [← hrun.2]
                exact hA
            | ok rs =>
                simp only [hcore] at hrun
                rcases rs with ⟨r0, s0⟩
                have hstep := nqpCore_acyclic mods rp now s task q req hA r0 s0 hcore
                simp only [Prod.mk.injEq] at hrun
                rw [← hrun.2]
                exact hstep
      · have hW' : wp req.userId task.id = false := by simpa using hW
        simp only [hW', Bool.false_eq_true, if_false, Prod.mk.injEq] at hrun
        rw [← hrun.2]
        exact hA

theorem C4_cycle_prevention_witness :
    next_question_post wmods allowAll allowAll 5 wstate wcycleReq =
      (.raised "CycleError", wstate) :=
  C4_cycle_prevention.1 wmods allowAll allowAll 5 wstate wcycleReq wtask2 wmod20 wq4
    "1" [1] 1 rfl rfl rfl rfl rfl (.inl rfl) rfl (by decide) rfl (by decide)
    (reaches_of_edge (by decide))

/- ## The __new path: atomic subtask creation -/

theorem succsOf_eq_nil {E : List (Nat × Nat)} {n : Nat}
    (h : ∀ e ∈ E, e.1 ≠ n) : succsOf E n = [] := by
  unfold succsOf
  have hf : E.filter (fun e => e.1 == n) = [] := by
    rw [List.filter_eq_nil_iff]
    intro e he
    simp [h e he]
  rw [hf]
  rfl

theorem reachableFrom_fresh {E : List (Nat × Nat)} {n : Nat}
    (h : ∀ e ∈ E, e.1 ≠ n) : reachableFrom E n = [n] := by
  unfold reachableFrom
  have hs : stepSet E [n] = [n] := by
    unfold stepSet
    simp [succsOf_eq_nil h]
  unfold closeSet
  rw [hs]
  simp

theorem edges_fst {s : State} {e : Nat × Nat} (h : e ∈ State.edges s) :
    ∃ ta ∈ s.answers, e.1 = ta.taskId := by
  rcases mem_edges.mp h with ⟨ta, hta, he⟩
  refine ⟨ta, hta, ?_⟩
  unfold edgesOfTA at he
  cases hh : ta.history.head? with
  | none => rw [hh] at he; simp at he
  | some a =>
      simp only [hh] at he
      by_cases hc : a.cleared = true
      · simp [hc] at he
      · have hc' : a.cleared = false := by simpa using hc
        simp only [hc', Bool.false_eq_true, if_false] at he
        rcases List.mem_map.mp he with ⟨c, _, heq⟩
        rw [← heq]

theorem isAncestorOf_fresh {s : State} {task : Task}
    (hfa : ∀ ta ∈ s.answers, ta.taskId ≠ s.nextTaskId)
    (hft : task.id ≠ s.nextTaskId) :
    isAncestorOf (State.edges s) s.nextTaskId task.id = false := by
  unfold isAncestorOf
  rw [reachableFrom_fresh]
  · rw [decide_eq_false]
    intro hmem
    simp only [List.mem_singleton] at hmem
    exact hft hmem
  · intro e he
    rcases edges_fst he with ⟨ta, hta, heq⟩
    rw [heq]
    exact hfa ta hta

theorem newSubtask_nextId (mods : List ModuleDef) (s1 s2 : State) (task : Task)
    (u a : Nat) (h : s1.nextTaskId = s2.nextTaskId) :
    newSubtask mods s1 task u a = newSubtask mods s2 task u a := by
  unfold newSubtask
  rw [h]

/-- Every path of the POST handler that does not answer ok leaves the state
exactly as it was: an exception aborts the request's transaction, a
validation error answers before mutating, and permission failures are
rejected up front. -/
theorem next_question_post_failure (mods : List ModuleDef)
    (wp rp : Nat → Nat → Bool) (now : Nat) (s : State) (req : PostReq) :
    ∀ r s', next_question_post mods wp rp now s req = (r, s') →
      (∀ u, r ≠ .jsonOk u) → s' = s := by
  intro r s' hrun hnok
  unfold next_question_post at hrun
  rcases Option.eq_none_or_eq_some (findTaskInOrg s req.taskId req.orgId) with hT | ⟨task, hT⟩
  · rw [hT] at hrun
    simp only [Prod.mk.injEq] at hrun
    exact hrun.2.symm
  · simp only [hT] at hrun
    by_cases hW : wp req.userId task.id = true
    · simp only [hW, if_true] at hrun
      rcases Option.eq_none_or_eq_some (findModule mods task.moduleId) with hM | ⟨m, hM⟩
      · simp only [hM, Prod.mk.injEq] at hrun
        exact hrun.2.symm
      · simp only [hM] at hrun
        rcases Option.eq_none_or_eq_some (findQuestion m req.questionId) with hQ | ⟨q, hQ⟩
        · simp only [hQ, Prod.mk.injEq] at hrun
          exact hrun.2.symm
        · simp only [hQ] at hrun
          cases hcore : nqpCore mods rp now s task q req with
          | error e =>
              simp only [hcore, Prod.mk.injEq] at hrun
              exact hrun.2.symm
          | ok rs =>
              simp only [hcore] at hrun
              rcases rs with ⟨r0, s0⟩
              simp only [Prod.mk.injEq] at hrun
              -- analyse the core to see which ok responses exist
              unfold nqpCore at hcore
              cases hp : parse_method_value q req.method req.value req.fileValue with
              | error e => simp [hp] at hcore
              | ok pm =>
                  simp only [hp] at hcore
                  cases pm with
                  | earlyOk =>
                      simp only [Except.ok.injEq, Prod.mk.injEq] at hcore
                      have hr : r = .jsonOk req.path := by rw [← hrun.1, ← hcore.1]
                      exact absurd hr (hnok req.path)
                  | invalid msg =>
                      simp only [Except.ok.injEq, Prod.mk.injEq] at hcore
                      rw [← hrun.2, ← hcore.2]
                  | parsed value cleared =>
                      simp only at hcore
                      cases hl : computeLinkage mods rp req.userId task q value cleared
                          req.path (getOrCreateTA s task.id q.id).2 with
                      | error e => simp [hl] at hcore
                      | ok link =>
                          simp only [hl] at hcore
                          cases cleared with
                          | true =>
                              simp only [if_true] at hcore
                              simp only [Except.ok.injEq, Prod.mk.injEq] at hcore
                              have hr : r = .jsonOk link.redirect := by
                                rw [← hrun.1, ← hcore.1]
                              exact absurd hr (hnok link.redirect)
                          | false =>
                              simp only [Bool.false_eq_true, if_false] at hcore
                              by_cases hg : (link.answeredByTasks.any
                                  (fun c => isAncestorOf (State.edges link.state)
                                    c task.id)) = true
                              · simp [hg] at hcore
                              · have hg' : (link.answeredByTasks.any
                                    (fun c => isAncestorOf (State.edges link.state)
                                      c task.id)) = false := by simpa using hg
                                simp only [hg', Bool.false_eq_true, if_false] at hcore
                                simp only [Except.ok.injEq, Prod.mk.injEq] at hcore
                                have hr : r = .jsonOk link.redirect := by
                                  rw [← hrun.1, ← hcore.1]
                                exact absurd hr (hnok link.redirect)
    · have hW' : wp req.userId task.id = false := by simpa using hW
      simp only [hW', Bool.false_eq_true, if_false, Prod.mk.injEq] at hrun
      exact hrun.2.symm

/-- Claim C5: creating a new child Task as a module answer is atomic.  On the
success path the resulting state holds exactly the new Task row appended to
the Task table and the parent question's current answer linking precisely
that Task; and on any path that does not answer ok - an exception (including
CycleError), a validation error, a permission rejection - the state comes
back exactly as it was, so no partially-linked state is observable. -/
theorem C5_create_subtask_atomic :
    (∀ (mods : List ModuleDef) (wp rp : Nat → Nat → Bool) (now : Nat) (s : State)
      (req : PostReq) (task : Task) (m : ModuleDef) (q : QuestionDef) (amId : Nat),
      findTaskInOrg s req.taskId req.orgId = some task →
      wp req.userId task.id = true →
      findModule mods task.moduleId = some m →
      findQuestion m req.questionId = some q →
      req.method = "save" →
      (q.qtype = "module" ∨ q.qtype = "module-set") →
      req.value = ["__new"] →
      q.answerTypeModule = some amId →
      (∀ ta ∈ s.answers, ta.taskId ≠ s.nextTaskId) →
      task.id ≠ s.nextTaskId →
      (next_question_post mods wp rp now s req).1 =
        .jsonOk (taskURL (newSubtask mods s task req.userId amId)) ∧
      (next_question_post mods wp rp now s req).2.tasks =
        s.tasks ++ [newSubtask mods s task req.userId amId] ∧
      (next_question_post mods wp rp now s req).2.effectiveAnswer task.id q.id =
        some ⟨none, [s.nextTaskId], none, false⟩) ∧
    (∀ (mods : List ModuleDef) (wp rp : Nat → Nat → Bool) (now : Nat) (s : State)
      (req : PostReq) (r : Response) (s' : State),
      next_question_post mods wp rp now s req = (r, s') →
      (∀ u, r ≠ .jsonOk u) → s' = s) := by
  constructor
  · intro mods wp rp now s req task m q amId hT hW hM hQ hS hmod hval ham hfa hft
    have hq1 : q.qtype ≠ "file" := by rcases hmod with h | h <;> simp [h]
    have hq2 : q.qtype ≠ "multiple-choice" := by rcases hmod with h | h <;> simp [h]
    have hq3 : q.qtype ≠ "external-function" := by rcases hmod with h | h <;> simp [h]
    have hpm : parse_method_value q req.method req.value req.fileValue =
        .ok (.parsed (some (.vstr "__new")) false) := by
      rw [hS, hval]
      exact parse_method_value_save_single q "__new" req.fileValue hq1 hq2 hq3
    obtain ⟨hfr1, hfr2, hfr3, hfr4⟩ := getOrCreateTA_frame s task.id q.id
    have hnt : newSubtask mods (getOrCreateTA s task.id q.id).2 task req.userId amId =
        newSubtask mods s task req.userId amId :=
      newSubtask_nextId _ _ _ _ _ _ hfr4
    have hcl : computeLinkage mods rp req.userId task q (some (.vstr "__new")) false req.path
        (getOrCreateTA s task.id q.id).2 =
        .ok { value := none
              answeredByTasks := [(newSubtask mods s task req.userId amId).id]
              answeredByFile := none
              state := { (getOrCreateTA s task.id q.id).2 with
                tasks := (getOrCreateTA s task.id q.id).2.tasks ++
                  [newSubtask mods s task req.userId amId],
                nextTaskId := (getOrCreateTA s task.id q.id).2.nextTaskId + 1 }
              redirect := taskURL (newSubtask mods s task req.userId amId) } := by
      unfold computeLinkage
      have h1 : ((q.qtype = "module" || q.qtype = "module-set") && !false) = true := by
        rcases hmod with h | h <;> simp [h]
      rw [if_pos h1, if_pos (show (some (Value.vstr "__new") ==
        some (Value.vstr "__new")) = true from rfl)]
      simp only [ham]
      rw [hnt]
    have hanc : isAncestorOf (State.edges
        { projects := (getOrCreateTA s task.id q.id).2.projects,
          tasks := s.tasks ++ [newSubtask mods s task req.userId amId],
          answers := (getOrCreateTA s task.id q.id).2.answers,
          events := (getOrCreateTA s task.id q.id).2.events,
          nextTaskId := (getOrCreateTA s task.id q.id).2.nextTaskId + 1 })
        (newSubtask mods s task req.userId amId).id task.id = false := by
      have hE : State.edges
          { projects := (getOrCreateTA s task.id q.id).2.projects,
            tasks := s.tasks ++ [newSubtask mods s task req.userId amId],
            answers := (getOrCreateTA s task.id q.id).2.answers,
            events := (getOrCreateTA s task.id q.id).2.events,
            nextTaskId := (getOrCreateTA s task.id q.id).2.nextTaskId + 1 } =
          State.edges s := by
        rw [edges_congr (rfl : (State.mk (getOrCreateTA s task.id q.id).2.projects
          (s.tasks ++ [newSubtask mods s task req.userId amId])
          (getOrCreateTA s task.id q.id).2.answers
          (getOrCreateTA s task.id q.id).2.events
          ((getOrCreateTA s task.id q.id).2.nextTaskId + 1)).answers =
            (getOrCreateTA s task.id q.id).2.answers)]
        exact edges_getOrCreate s task.id q.id
      rw [hE]
      exact isAncestorOf_fresh hfa hft
    have hstate : (next_question_post mods wp rp now s req).1 =
          .jsonOk (taskURL (newSubtask mods s task req.userId amId)) ∧
        (next_question_post mods wp rp now s req).2.tasks =
          s.tasks ++ [newSubtask mods s task req.userId amId] ∧
        (next_question_post mods wp rp now s req).2.answers =
          (setTA { (getOrCreateTA s task.id q.id).2 with
              tasks := (getOrCreateTA s task.id q.id).2.tasks ++
                [newSubtask mods s task req.userId amId],
              nextTaskId := (getOrCreateTA s task.id q.id).2.nextTaskId + 1 }
            ((getOrCreateTA s task.id q.id).1.save_answer none
              [(newSubtask mods s task req.userId amId).id] none).1).answers := by
      unfold next_question_post
      simp only [hT, hW, if_true, hM, hQ]
      unfold nqpCore
      simp only [hpm, hcl]
      simp [addEvent, setTA, hfr1, hanc]
    obtain ⟨hresp, htasks, hans⟩ := hstate
    refine ⟨hresp, htasks, ?_⟩
    obtain ⟨hid1, hid2⟩ := getOrCreateTA_ids s task.id q.id
    obtain ⟨hsid1, hsid2⟩ := save_answer_ids (getOrCreateTA s task.id q.id).1 none
      [(newSubtask mods s task req.userId amId).id] none
    have hfind : findTaskAnswer (next_question_post mods wp rp now s req).2 task.id q.id =
        some ((getOrCreateTA s task.id q.id).1.save_answer none
          [(newSubtask mods s task req.userId amId).id] none).1 := by
      unfold findTaskAnswer
      rw [hans]
      have hex : ∃ x ∈ ({ (getOrCreateTA s task.id q.id).2 with
          tasks := (getOrCreateTA s task.id q.id).2.tasks ++
            [newSubtask mods s task req.userId amId],
          nextTaskId := (getOrCreateTA s task.id q.id).2.nextTaskId + 1 } : State).answers,
          x.taskId = ((getOrCreateTA s task.id q.id).1.save_answer none
            [(newSubtask mods s task req.userId amId).id] none).1.taskId ∧
          x.questionId = ((getOrCreateTA s task.id q.id).1.save_answer none
            [(newSubtask mods s task req.userId amId).id] none).1.questionId := by
        refine ⟨(getOrCreateTA s task.id q.id).1, getOrCreateTA_mem s task.id q.id, ?_, ?_⟩
        · rw [hsid1]
        · rw [hsid2]
      have hfs := findTaskAnswer_setTA hex
      unfold findTaskAnswer at hfs
      rw [hsid1, hid1, hsid2, hid2] at hfs
      exact hfs
    unfold State.effectiveAnswer
    rw [hfind]
    exact effectiveEntry_of_head (save_answer_head _ _ _ _) rfl
  · intro mods wp rp now s req r s' hrun hnok
    exact next_question_post_failure mods wp rp now s req r s' hrun hnok

theorem C5_create_subtask_atomic_witness :
    (next_question_post wmods allowAll allowAll 5 wstate wnewReq).2.tasks =
      wstate.tasks ++ [newSubtask wmods wstate wtask1 7 20] :=
  ((C5_create_subtask_atomic.1 wmods allowAll allowAll 5 wstate wnewReq wtask1 wmod10 wq2 20
    rfl rfl rfl rfl rfl (.inl rfl) rfl rfl (by decide) (by decide)).2).1

end GovReady
